import Mathlib

/-! Channel and source-location reconciliation (package awsmt)

A shallow embedding of `src/awsmt/resource_channel.go`,
`src/awsmt/resource_source_location.go` and the update, delete and flatten
functions of `src/awsmt/resource_playback_configuration.go`.

* The remote control plane is a value of type `Remote`; every SDK call the Go
  code makes is `call`, which appends the call to `Remote.trace` and either
  fails (the `Client` gives an error text) or applies the call's effect.
* `*schema.ResourceData` is the record `ResourceData`.
* `diag.Diagnostics` is the list of the summaries of its diagnostics; `nil`
  is `[]` and `diag.FromErr err` is `[err.Error()]`.
* Each CRUD function returns the diagnostics, the record and the remote as
  they are when the Go function returns.
* Helpers of the package that the two files call but do not declare
  (`stopChannel`, `startChannel`, `updateTags`, `updatePolicy`,
  `checkStatusAndStartChannel`, `createChannelPolicy`, `deleteVodSources`,
  `deleteLiveSources`) follow the specification; those that only write the
  local record are the fields of `Helpers`, or the parameter `setSL` of the
  source-location read.
* A Go function that can panic returns an `Option`, `none` being the panic.
-/

namespace Awsmt

/-! ## Data model -/

/-- A tag map (`map[string]interface{}` with string values) as an association
list; the first binding of a key is the one that counts. -/
abbrev Tags := List (String × String)

/-- The SDK operations of the MediaTailor client the resources use, with the
arguments the code passes. -/
inductive Call where
  | CreateChannel (name : String)
  | DescribeChannel (name : String)
  | UpdateChannel (name : String)
  | DeleteChannel (name : String)
  | StartChannel (name : String)
  | StopChannel (name : String)
  | PutChannelPolicy (name : String) (policy : String)
  | GetChannelPolicy (name : String)
  | DeleteChannelPolicy (name : String)
  | TagResource (arn : String) (tags : Tags)
  | UntagResource (arn : String) (keys : List String)
  | ListVodSources (location : String)
  | DeleteVodSource (location : String) (name : String)
  | ListLiveSources (location : String)
  | DeleteLiveSource (location : String) (name : String)
  | DeleteSourceLocation (name : String)
  | DescribeSourceLocation (name : String)
  | UpdateSourceLocation (name : String)
  | PutPlaybackConfiguration (name : String)
  | DeletePlaybackConfiguration (name : String)
  deriving DecidableEq, Repr

/-- The failure behaviour of the remote client: given the calls issued so far
and the call being made, `some e` when the call fails with error text `e`,
`none` when it succeeds. -/
abbrev Client := List Call → Call → Option String

/-- The remote control plane: the operational state of the channel
(`ChannelState` of `DescribeChannel`), the ARN it reports, the attached policy,
the children of the source location and the calls received, oldest first. -/
structure Remote where
  channelState : String
  arn : String
  policy : Option String
  vodSources : List String
  liveSources : List String
  trace : List Call
  deriving DecidableEq, Repr

/-- The part of `*schema.ResourceData` the operations read and write. For a
changed attribute `oldX` is the first and `x` the second result of
`d.GetChange`. For `channel_state` the record holds the value declared in the
configuration (`configChannelState`, "" when none is declared) and the value
of the prior state (`priorChannelState`, "" when it holds none); what `d.Get`
gives is `ResourceData.channelState`. -/
structure ResourceData where
  id : String
  name : String
  configChannelState : String
  oldPolicy : String
  policy : String
  oldTags : Tags
  tags : Tags
  priorChannelState : String
  deriving DecidableEq, Repr

/-- The `DiffSuppressFunc` of the `channel_state` attribute: `len(new) == 0`. -/
def channelStateDiffSuppress (_old new : String) : Bool :=
  new.length == 0

/-- The value of `channel_state` that `d.Get`, `d.GetOk` and the second result
of `d.GetChange` give: the prior state merged with the planned change. When the
`DiffSuppressFunc` suppresses the change, which it does when nothing is
declared, the value of the prior state is kept; otherwise the declared value is
the new value. -/
def ResourceData.channelState (d : ResourceData) : String :=
  if channelStateDiffSuppress d.priorChannelState d.configChannelState then d.priorChannelState
  else d.configChannelState

/-- Summaries of the diagnostics returned (`diag.Diagnostics`). -/
abbrev Diagnostics := List String

/-- What an operation leaves behind when it returns. -/
structure Outcome where
  diags : Diagnostics
  data : ResourceData
  remote : Remote
  deriving DecidableEq, Repr

/-- The fields of `DescribeChannelOutput` the code reads. -/
structure DescribeChannelOutput where
  arn : String
  channelState : String
  deriving DecidableEq, Repr

/-- Helpers of the package that only touch the local record and are declared
outside the files embedded here; they are parameters of the operations.
`setChannel` and `setChannelPolicy` give the record as they leave it and the
error they return, if any. -/
structure Helpers where
  getResourceName : ResourceData → Except String String
  setChannel : DescribeChannelOutput → ResourceData → ResourceData × Option String
  setChannelPolicy : Option String → ResourceData → ResourceData × Option String

/-! ## The remote client -/

/-- Effect of a call that succeeds. A created channel is stopped,
`StartChannel` and `StopChannel` set the operational state, the policy and
the children follow the put and delete calls; every other call leaves the
remote as it is. -/
def Remote.apply (r : Remote) : Call → Remote
  | .CreateChannel _ => { r with channelState := "STOPPED" }
  | .StartChannel _ => { r with channelState := "RUNNING" }
  | .StopChannel _ => { r with channelState := "STOPPED" }
  | .PutChannelPolicy _ p => { r with policy := some p }
  | .DeleteChannelPolicy _ => { r with policy := none }
  | .DeleteVodSource _ n => { r with vodSources := r.vodSources.erase n }
  | .DeleteLiveSource _ n => { r with liveSources := r.liveSources.erase n }
  | _ => r

/-- One SDK call: it is recorded in the trace; when the client fails it the
remote is otherwise unchanged, when it succeeds its effect is applied. -/
def call (cl : Client) (c : Call) (r : Remote) : Option String × Remote :=
  match cl r.trace c with
  | some e => (some e, { r with trace := r.trace ++ [c] })
  | none => (none, { r.apply c with trace := r.trace ++ [c] })

/-- The calls an operation issued: what the trace of `r2` holds beyond that
of the remote `r1` the operation started from. -/
def issued (r1 r2 : Remote) : List Call :=
  r2.trace.drop r1.trace.length

/-- The calls that change or depend on the operational state of a channel:
`StopChannel`, `UpdateChannel`, `StartChannel`. -/
def Call.isStateCall : Call → Bool
  | .StopChannel _ | .UpdateChannel _ | .StartChannel _ => true
  | _ => false

/-- The calls of the read-back: `DescribeChannel` and `GetChannelPolicy`. -/
def Call.isReadCall : Call → Bool
  | .DescribeChannel _ | .GetChannelPolicy _ => true
  | _ => false

/-- The tag calls: `TagResource` and `UntagResource`. -/
def Call.isTagCall : Call → Bool
  | .TagResource _ _ | .UntagResource _ _ => true
  | _ => false

/-- The calls that write the policy: `PutChannelPolicy` and
`DeleteChannelPolicy`. -/
def Call.isPolicyCall : Call → Bool
  | .PutChannelPolicy _ _ | .DeleteChannelPolicy _ => true
  | _ => false

/-- Whether the client fails one of the calls `cs` when they are issued in
this order after the calls `pre`. -/
def anyFailed (cl : Client) (pre : List Call) : List Call → Bool
  | [] => false
  | c :: cs => (cl pre c).isSome || anyFailed cl (pre ++ [c]) cs

/-! ## The `policy` attribute: `DiffSuppressFunc` -/

/-- The class `\s` of Go's regexp syntax: `[\t\n\f\r ]`. -/
def isPerlSpace (c : Char) : Bool :=
  c = '\t' || c = '\n' || c = '\x0c' || c = '\r' || c = ' '

/-- Match of `x?` at the head of the input, `x` a one-character class: greedy,
so one character when the class has it, otherwise the empty match. The result
is the number of characters matched; `x?` never fails. -/
def matchOpt (cls : Char → Bool) : List Char → Option Nat
  | [] => some 0
  | c :: _ => if cls c then some 1 else some 0

/-- Leftmost-first alternation: the match of the first alternative that
matches at the head of the input. -/
def matchAlt (alts : List (List Char → Option Nat)) (input : List Char) : Option Nat :=
  alts.findSome? fun a => a input

/-- The expression `\s?|\r?|\n?` compiled by `regexp.MustCompile`. -/
def policyRe : List (List Char → Option Nat) :=
  [matchOpt isPerlSpace, matchOpt (fun c => c = '\r'), matchOpt (fun c => c = '\n')]

/-- `re.ReplaceAllString(s, "")` for an expression that matches (possibly
the empty string) at every position: a one-character match is dropped, at an
empty match the search advances one character, which is then copied as
unmatched text. -/
def replaceAllEmpty (re : List (List Char → Option Nat)) : List Char → List Char
  | [] => []
  | c :: cs =>
    match matchAlt re (c :: cs) with
    | some (_ + 1) => replaceAllEmpty re cs
    | _ => c :: replaceAllEmpty re cs

/-- The `DiffSuppressFunc` of the `policy` attribute. -/
def policyDiffSuppress (old new : String) : Bool :=
  replaceAllEmpty policyRe old.toList = replaceAllEmpty policyRe new.toList

/-- The comparison as the specification words it: the documents with every
space, tab, carriage return, line feed and form feed removed. -/
def stripWhitespace (s : String) : List Char :=
  s.toList.filter fun c => !(c = ' ' || c = '\t' || c = '\r' || c = '\n' || c = '\x0c')

/-- `strings.Contains(s, sub)`. -/
def stringsContains (s sub : String) : Bool :=
  s.toList.tails.any fun t => sub.toList.isPrefixOf t

/-! ## Helpers that issue remote calls -/

/-- Map equality of two tag maps: every key is bound to the same value, or to
none, in both (`reflect.DeepEqual` on the maps). -/
def tagsEqual (a b : Tags) : Bool :=
  a.all (fun kv => b.lookup kv.1 = a.lookup kv.1) &&
    b.all (fun kv => a.lookup kv.1 = b.lookup kv.1)

/-- `d.HasChange("tags")`. -/
def ResourceData.hasChangeTags (d : ResourceData) : Bool :=
  !tagsEqual d.oldTags d.tags

/-- Modelled from the spec: the tag differ behind `updateTags` is not in the
embedded files. Section 4.5: keys present in `old` but absent from `new` go
into "remove". -/
def removedTags (old new : Tags) : List String :=
  (old.filter fun kv => (new.lookup kv.1).isNone).map Prod.fst

/-- Modelled from the spec: the tag differ behind `updateTags` is not in the
embedded files. Section 4.5: keys present in `new` with a different or absent
value in `old` go into "add/update". -/
def addedTags (old new : Tags) : Tags :=
  new.filter fun kv => old.lookup kv.1 != some kv.2

/-- Modelled from the spec: `updateTags` is not in the embedded files.
Section 4.5: removals and additions are submitted as two independent calls
(`UntagResource`, `TagResource`); an empty set is not submitted. The first
failing call ends the step with its error. -/
def updateTags (cl : Client) (arn : String) (old new : Tags) (r : Remote) :
    Option String × Remote :=
  match (if (removedTags old new).isEmpty then (none, r)
         else call cl (.UntagResource arn (removedTags old new)) r) with
  | (some e, r1) => (some e, r1)
  | (none, r1) =>
    if (addedTags old new).isEmpty then (none, r1)
    else call cl (.TagResource arn (addedTags old new)) r1

/-- Modelled from the spec: `stopChannel` is not in the embedded files. It
issues `StopChannel` for the channel and returns the call's error, if any. -/
def stopChannel (cl : Client) (name : String) (r : Remote) : Option String × Remote :=
  call cl (.StopChannel name) r

/-- Modelled from the spec: `startChannel` is not in the embedded files. It
issues `StartChannel` for the channel and returns the call's error, if any. -/
def startChannel (cl : Client) (name : String) (r : Remote) : Option String × Remote :=
  call cl (.StartChannel name) r

/-- Modelled from the spec: `checkStatusAndStartChannel` is not in the embedded
files. Section 4.1, step 2: if the desired operational state is RUNNING, issue
an explicit start; if STOPPED or absent, take no action. On create there is no
prior state, so the record gives the declared value. -/
def checkStatusAndStartChannel (cl : Client) (d : ResourceData) (r : Remote) :
    Option String × Remote :=
  if d.channelState = "RUNNING" then startChannel cl d.name r else (none, r)

/-- Modelled from the spec: `createChannelPolicy` is not in the embedded files.
Section 4.1, step 3: if a policy document is declared, create it. -/
def createChannelPolicy (cl : Client) (d : ResourceData) (r : Remote) :
    Option String × Remote :=
  if d.policy = "" then (none, r) else call cl (.PutChannelPolicy d.name d.policy) r

/-- Modelled from the spec: `updatePolicy` is not in the embedded files.
Section 4.2, step 4: if the new document differs from the current one
(whitespace-insensitive) it is created or updated; if the new document is
empty and a policy currently exists, it is deleted. -/
def updatePolicy (cl : Client) (d : ResourceData) (name : String) (r : Remote) :
    Option String × Remote :=
  if policyDiffSuppress d.oldPolicy d.policy then (none, r)
  else if d.policy = "" then call cl (.DeleteChannelPolicy name) r
  else call cl (.PutChannelPolicy name d.policy) r

/-- Deletes the children one by one with the call `mk` builds for each; the
first failing call ends the loop with its error. -/
def deleteEach (cl : Client) (mk : String → Call) : List String → Remote → Option String × Remote
  | [], r => (none, r)
  | n :: ns, r =>
    match call cl (mk n) r with
    | (some e, r1) => (some e, r1)
    | (none, r1) => deleteEach cl mk ns r1

/-- Modelled from the spec: `deleteVodSources` is not in the embedded files.
Section 4.6: enumerate all dependent on-demand source children of the parent
and delete each one individually; a failure aborts the cascade. -/
def deleteVodSources (cl : Client) (location : String) (r : Remote) : Option String × Remote :=
  match call cl (.ListVodSources location) r with
  | (some e, r1) => (some e, r1)
  | (none, r1) => deleteEach cl (.DeleteVodSource location) r1.vodSources r1

/-- Modelled from the spec: `deleteLiveSources` is not in the embedded files.
Section 4.6: enumerate all dependent live source children of the parent and
delete each one individually; a failure aborts the cascade. -/
def deleteLiveSources (cl : Client) (location : String) (r : Remote) : Option String × Remote :=
  match call cl (.ListLiveSources location) r with
  | (some e, r1) => (some e, r1)
  | (none, r1) => deleteEach cl (.DeleteLiveSource location) r1.liveSources r1

/-! ## The channel resource -/

/-- Embeds `resourceChannelRead`. The errors of `setChannel` and
`setChannelPolicy` are passed to `diag.FromErr` and the result is dropped; on
a failed `GetChannelPolicy` whose text contains "NotFound" the policy output
carries no policy. -/
def resourceChannelRead (h : Helpers) (cl : Client) (d : ResourceData) (r : Remote) : Outcome :=
  match h.getResourceName d with
  | .error e => ⟨[e], d, r⟩
  | .ok resourceName =>
    match call cl (.DescribeChannel resourceName) r with
    | (some e, r1) => ⟨["error while retrieving the channel: " ++ e], d, r1⟩
    | (none, r1) =>
      let d1 := (h.setChannel ⟨r1.arn, r1.channelState⟩ d).1
      match call cl (.GetChannelPolicy resourceName) r1 with
      | (some e, r2) =>
        if !stringsContains e "NotFound" then
          ⟨["error while getting the channel policy: " ++ e], d1, r2⟩
        else ⟨[], (h.setChannelPolicy none d1).1, r2⟩
      | (none, r2) => ⟨[], (h.setChannelPolicy r2.policy d1).1, r2⟩

/-- Embeds `resourceChannelCreate`. -/
def resourceChannelCreate (h : Helpers) (cl : Client) (d : ResourceData) (r : Remote) : Outcome :=
  match call cl (.CreateChannel d.name) r with
  | (some e, r1) => ⟨["error while creating the channel: " ++ e], d, r1⟩
  | (none, r1) =>
    match checkStatusAndStartChannel cl d r1 with
    | (some e, r2) => ⟨["error while starting the channel: " ++ e], d, r2⟩
    | (none, r2) =>
      match createChannelPolicy cl d r2 with
      | (some e, r3) => ⟨[e], d, r3⟩
      | (none, r3) => resourceChannelRead h cl { d with id := r1.arn } r3

/-- The `d.HasChange("tags")` block of `resourceChannelUpdate`: describe the
channel for its ARN, then `updateTags`; both errors are returned bare. -/
def channelTagStep (cl : Client) (d : ResourceData) (r : Remote) : Option String × Remote :=
  if d.hasChangeTags then
    match call cl (.DescribeChannel d.name) r with
    | (some e, r1) => (some e, r1)
    | (none, r1) => updateTags cl r1.arn d.oldTags d.tags r1
  else (none, r)

/-- The value of `newStatusFromSchema`: the `channel_state` of the record when
`d.GetOk` finds one (a non-empty string), otherwise "". The record gives the
declared value or, when none is declared, the one kept from the prior state. -/
def newStatusFromSchema (d : ResourceData) : String :=
  if d.channelState ≠ "" then d.channelState else ""

/-- The condition under which `resourceChannelUpdate` calls `startChannel`. -/
def restartCondition (previousStatus newStatus : String) : Bool :=
  (previousStatus = "RUNNING" || newStatus = "RUNNING") && newStatus != "STOPPED"

/-- Embeds `resourceChannelUpdate`. -/
def resourceChannelUpdate (h : Helpers) (cl : Client) (d : ResourceData) (r : Remote) : Outcome :=
  match channelTagStep cl d r with
  | (some e, r1) => ⟨[e], d, r1⟩
  | (none, r1) =>
    match call cl (.DescribeChannel d.name) r1 with
    | (some e, r2) => ⟨[e], d, r2⟩
    | (none, r2) =>
      let previousStatus := r2.channelState
      match (if previousStatus = "RUNNING" then stopChannel cl d.name r2 else (none, r2)) with
      | (some e, r3) => ⟨[e], d, r3⟩
      | (none, r3) =>
        match updatePolicy cl d d.name r3 with
        | (some e, r4) => ⟨[e], d, r4⟩
        | (none, r4) =>
          match call cl (.UpdateChannel d.name) r4 with
          | (some e, r5) => ⟨["error while updating the channel: " ++ e], d, r5⟩
          | (none, r5) =>
            match (if restartCondition previousStatus (newStatusFromSchema d)
                   then startChannel cl d.name r5 else (none, r5)) with
            | (some e, r6) => ⟨[e], d, r6⟩
            | (none, r6) => resourceChannelRead h cl { d with id := r5.arn } r6

/-- Embeds `resourceChannelDelete`. -/
def resourceChannelDelete (cl : Client) (d : ResourceData) (r : Remote) : Outcome :=
  match call cl (.StopChannel d.name) r with
  | (some e, r1) => ⟨["error while stopping the channel: " ++ e], d, r1⟩
  | (none, r1) =>
    match call cl (.DeleteChannelPolicy d.name) r1 with
    | (some e, r2) => ⟨["error while deleting the channel policy: " ++ e], d, r2⟩
    | (none, r2) =>
      match call cl (.DeleteChannel d.name) r2 with
      | (some e, r3) => ⟨["error while deleting the resource: " ++ e], d, r3⟩
      | (none, r3) => ⟨[], d, r3⟩

/-! ## The source-location resource -/

/-- Embeds `resourceSourceLocationDelete`. -/
def resourceSourceLocationDelete (cl : Client) (d : ResourceData) (r : Remote) : Outcome :=
  match deleteVodSources cl d.name r with
  | (some e, r1) => ⟨[e], d, r1⟩
  | (none, r1) =>
    match deleteLiveSources cl d.name r1 with
    | (some e, r2) => ⟨[e], d, r2⟩
    | (none, r2) =>
      match call cl (.DeleteSourceLocation d.name) r2 with
      | (some e, r3) => ⟨["error while deleting the resource: " ++ e], d, r3⟩
      | (none, r3) => ⟨[], d, r3⟩

/-- The calls `updateTags` makes when none fails. -/
def tagCalls (arn : String) (old new : Tags) : List Call :=
  (if (removedTags old new).isEmpty then [] else [.UntagResource arn (removedTags old new)]) ++
    (if (addedTags old new).isEmpty then [] else [.TagResource arn (addedTags old new)])

/-- The calls the tag block of `resourceChannelUpdate` makes when none fails. -/
def tagStepCalls (d : ResourceData) (arn : String) : List Call :=
  if d.hasChangeTags then .DescribeChannel d.name :: tagCalls arn d.oldTags d.tags else []

/-- The call `updatePolicy` makes, if any. -/
def policyCalls (d : ResourceData) (name : String) : List Call :=
  if policyDiffSuppress d.oldPolicy d.policy then []
  else if d.policy = "" then [.DeleteChannelPolicy name]
  else [.PutChannelPolicy name d.policy]

/-- The stop call of `resourceChannelUpdate`, made when the channel is observed
RUNNING. -/
def stopPart (previousStatus name : String) : List Call :=
  if previousStatus = "RUNNING" then [.StopChannel name] else []

/-- The start call of `resourceChannelUpdate`, made under `restartCondition`. -/
def startPart (previousStatus newStatus name : String) : List Call :=
  if restartCondition previousStatus newStatus then [.StartChannel name] else []

/-- The operational state once the stop decision has been carried out. -/
def stateAfterStop (previousStatus : String) : String :=
  if previousStatus = "RUNNING" then "STOPPED" else previousStatus

/-- The operational state `resourceChannelUpdate` leaves when it reaches the
read-back. -/
def finalState (previousStatus newStatus : String) : String :=
  if restartCondition previousStatus newStatus then "RUNNING" else stateAfterStop previousStatus

/-- The calls `resourceChannelUpdate` makes before the stop decision when none
fails: the tag block and the describe that observes the state. -/
def observeCalls (d : ResourceData) (arn : String) : List Call :=
  tagStepCalls d arn ++ [.DescribeChannel d.name]

/-- The first step of `resourceChannelCreate`: the `CreateChannel` call. -/
def createStep (cl : Client) (d : ResourceData) (r : Remote) : Option String × Remote :=
  call cl (.CreateChannel d.name) r

/-- The start step of `resourceChannelCreate`, run on the remote the create
call leaves. -/
def startStep (cl : Client) (d : ResourceData) (r : Remote) : Option String × Remote :=
  checkStatusAndStartChannel cl d (createStep cl d r).2

/-- The policy step of `resourceChannelCreate`, run on the remote the start
step leaves. -/
def policyStep (cl : Client) (d : ResourceData) (r : Remote) : Option String × Remote :=
  createChannelPolicy cl d (startStep cl d r).2

/-- The on-demand step of `resourceSourceLocationDelete`: its error, if any,
and the remote after it. -/
def vodStep (cl : Client) (d : ResourceData) (r : Remote) : Option String × Remote :=
  deleteVodSources cl d.name r

/-- The live step of `resourceSourceLocationDelete`, run on the remote the
on-demand step leaves. -/
def liveStep (cl : Client) (d : ResourceData) (r : Remote) : Option String × Remote :=
  deleteLiveSources cl d.name (vodStep cl d r).2

/-- The tag map after a diff is applied to `old`: the removed keys are dropped
(`UntagResource`), then the added or updated bindings are set (`TagResource`),
taking precedence over what `old` binds. -/
def applyTagDiff (old : Tags) (removed : List String) (added : Tags) : Tags :=
  added ++ old.filter fun kv => !removed.contains kv.1

/-! ## Source-location read and update -/

/-- `strings.Split(s, sep)` for a one-character separator, on the characters
of `s`: the pieces between the separators, one more than there are separators. -/
def splitOnChar (sep : Char) : List Char → List (List Char)
  | [] => [[]]
  | c :: cs =>
    if c = sep then [] :: splitOnChar sep cs
    else
      match splitOnChar sep cs with
      | [] => [[c]]
      | seg :: rest => (c :: seg) :: rest

/-- `strings.Split(s, "/")`. -/
def stringsSplitSlash (s : String) : List String :=
  (splitOnChar '/' s.toList).map String.mk

/-- `strings.SplitN(s, sep, n)` for a one-character separator: at most `n`
pieces, the last one being the unsplit remainder; no piece for `n = 0`. -/
def splitNChar (sep : Char) : Nat → List Char → List (List Char)
  | 0, _ => []
  | 1, s => [s]
  | n + 2, s =>
    match s.span (fun c => c != sep) with
    | (a, []) => [a]
    | (a, _ :: rest) => a :: splitNChar sep (n + 1) rest

/-- The `arn.ARN` value of the AWS SDK. -/
structure Arn where
  partition : String
  service : String
  region : String
  accountID : String
  resource : String
  deriving DecidableEq, Repr

/-- `arn.Parse` of the AWS SDK: the text must start with `arn:` and split on
`:` into six sections, the sixth being the resource with any further colons. -/
def arnParse (s : String) : Except String Arn :=
  if !("arn:".toList.isPrefixOf s.toList) then .error "arn: invalid prefix"
  else
    match splitNChar ':' 6 s.toList with
    | [_, p, sv, rg, ac, rs] =>
      .ok ⟨String.mk p, String.mk sv, String.mk rg, String.mk ac, String.mk rs⟩
    | _ => .error "arn: not enough sections"

/-- Lines 82 to 90 of `resourceSourceLocationRead`: the name used for the
describe call. `none` is the index-out-of-range panic of
`arnSections[len(arnSections)-1]` on an empty slice, `some (.error e)` the
error of `arn.Parse`. -/
def sourceLocationReadName (d : ResourceData) : Option (Except String String) :=
  if d.name.length = 0 ∧ d.id.length > 0 then
    match arnParse d.id with
    | .error e => some (.error e)
    | .ok resourceArn =>
      match (stringsSplitSlash resourceArn.resource).getLast? with
      | none => none
      | some n => some (.ok n)
  else some (.ok d.name)

/-- Embeds `resourceSourceLocationRead`; `none` is a panic. The helper
`setSourceLocation`, declared outside the embedded files, is the parameter
`setSL`: given the ARN of the describe output and the record it gives the
record as it leaves it and its error, if any. -/
def resourceSourceLocationRead (setSL : String → ResourceData → ResourceData × Option String)
    (cl : Client) (d : ResourceData) (r : Remote) : Option Outcome :=
  match sourceLocationReadName d with
  | none => none
  | some (.error e) => some ⟨["error parsing the name from resource arn: " ++ e], d, r⟩
  | some (.ok resourceName) =>
    match call cl (.DescribeSourceLocation resourceName) r with
    | (some e, r1) => some ⟨["error while retrieving the source location: " ++ e], d, r1⟩
    | (none, r1) =>
      match setSL r1.arn d with
      | (d1, some e) => some ⟨[e], d1, r1⟩
      | (d1, none) => some ⟨[], d1, r1⟩

/-- The `d.HasChange("tags")` block of `resourceSourceLocationUpdate`: describe
the source location for its ARN, then `updateTags`; both errors are returned
bare. -/
def sourceLocationTagStep (cl : Client) (d : ResourceData) (r : Remote) :
    Option String × Remote :=
  if d.hasChangeTags then
    match call cl (.DescribeSourceLocation d.name) r with
    | (some e, r1) => (some e, r1)
    | (none, r1) => updateTags cl r1.arn d.oldTags d.tags r1
  else (none, r)

/-- Embeds `resourceSourceLocationUpdate`; `none` is a panic of the read-back. -/
def resourceSourceLocationUpdate (setSL : String → ResourceData → ResourceData × Option String)
    (cl : Client) (d : ResourceData) (r : Remote) : Option Outcome :=
  match sourceLocationTagStep cl d r with
  | (some e, r1) => some ⟨[e], d, r1⟩
  | (none, r1) =>
    match call cl (.UpdateSourceLocation d.name) r1 with
    | (some e, r2) => some ⟨["error while updating the source location: " ++ e], d, r2⟩
    | (none, r2) => resourceSourceLocationRead setSL cl { d with id := r2.arn } r2

/-! ## The `name` attribute: `CustomizeDiff` -/

/-- The condition passed to `customdiff.ForceNewIfChange("name", ...)` in
`resourceChannel`: `old.(string) != new.(string)`. -/
def channelNameForceNew (old new : String) : Bool :=
  old != new

/-- The condition passed to `customdiff.ForceNewIfChange("name", ...)` in
`resourceSourceLocation`: `old.(string) != new.(string)`. -/
def sourceLocationNameForceNew (old new : String) : Bool :=
  old != new

/-- `customdiff.ForceNewIfChange(key, f)` applied to the old and new value of
the key: the key is flagged as requiring a new resource exactly when `f` holds
of them. The result is whether `d.ForceNew(key)` is called. -/
def forceNewIfChange (f : String → String → Bool) (old new : String) : Bool :=
  if f old new then true else false

/-! ## The playback-configuration resource -/

/-- The record of `awsmt_playback_configuration`: its identifier and the
string attributes of the schema. -/
structure PlaybackData where
  id : String
  name : String
  adDecisionServerUrl : String
  slateAdUrl : String
  transcodeProfileName : String
  videoContentSourceUrl : String
  tags : Tags
  deriving DecidableEq, Repr

/-- What a playback-configuration operation leaves behind when it returns. -/
structure PlaybackOutcome where
  diags : Diagnostics
  data : PlaybackData
  remote : Remote
  deriving DecidableEq, Repr

/-- Embeds `resourcePlaybackConfigurationUpdate`: `diags` is declared and
returned; neither the record nor the client is used. -/
def resourcePlaybackConfigurationUpdate (_cl : Client) (d : PlaybackData) (r : Remote) :
    PlaybackOutcome :=
  let diags : Diagnostics := []
  ⟨diags, d, r⟩

/-- Embeds `resourcePlaybackConfigurationDelete`: `diags` is declared and
returned; neither the record nor the client is used. -/
def resourcePlaybackConfigurationDelete (_cl : Client) (d : PlaybackData) (r : Remote) :
    PlaybackOutcome :=
  let diags : Diagnostics := []
  ⟨diags, d, r⟩

/-- `*mediatailor.CdnConfiguration`, fields as `*string`. -/
structure CdnConfiguration where
  adSegmentUrlPrefix : Option String
  contentSegmentUrlPrefix : Option String
  deriving DecidableEq, Repr

/-- `*mediatailor.DashConfiguration`, the fields read, as `*string`. -/
structure DashConfiguration where
  mpdLocation : Option String
  originManifestType : Option String
  deriving DecidableEq, Repr

/-- `mediatailor.GetPlaybackConfigurationOutput`, the fields read. A pointer
field is an `Option`, `none` being the nil pointer. -/
structure GetPlaybackConfigurationOutput where
  adDecisionServerUrl : Option String
  cdnConfiguration : Option CdnConfiguration
  dashConfiguration : Option DashConfiguration
  name : Option String
  slateAdUrl : Option String
  tags : List (String × Option String)
  transcodeProfileName : Option String
  videoContentSourceUrl : Option String
  deriving DecidableEq, Repr

/-- A value stored in the flattened map: a `*string`, the tag map
(`map[string]*string`), or a one-element list holding a map of `*string`
fields (`[]interface{}{map[string]interface{}{...}}`). -/
inductive FlatValue where
  | ptr (s : Option String)
  | tagMap (m : List (String × Option String))
  | block (fields : List (String × Option String))
  deriving DecidableEq, Repr

/-- Embeds `flatterResourcePlaybackConfiguration`. The result is `none` when
the Go function panics: reading a field through a nil `CdnConfiguration` or
`DashConfiguration` is a nil-pointer dereference. The map is the list of its
entries in the order the keys are assigned. -/
def flatterResourcePlaybackConfiguration :
    Option GetPlaybackConfigurationOutput → Option (List (String × FlatValue))
  | none => some []
  | some configuration =>
    match configuration.cdnConfiguration with
    | none => none
    | some cdn =>
      match configuration.dashConfiguration with
      | none => none
      | some dash =>
        some [
          ("ad_decision_server_url", .ptr configuration.adDecisionServerUrl),
          ("cdn_configuration", .block [
            ("ad_segment_url_prefix", cdn.adSegmentUrlPrefix),
            ("content_segment_url_prefix", cdn.contentSegmentUrlPrefix)]),
          ("dash_configuration", .block [
            ("mpd_location", dash.mpdLocation),
            ("origin_manifest_type", dash.originManifestType)]),
          ("name", .ptr configuration.name),
          ("slate_ad_url", .ptr configuration.slateAdUrl),
          ("tags", .tagMap configuration.tags),
          ("transcode_profile_name", .ptr configuration.transcodeProfileName),
          ("video_content_source_url", .ptr configuration.videoContentSourceUrl)]

/-! ## Sample inputs -/

/-- A client whose calls all succeed. -/
def okClient : Client := fun _ _ => none

/-- Record helpers that take the name from the record and write nothing. -/
def plainHelpers : Helpers where
  getResourceName := fun d => .ok d.name
  setChannel := fun _ d => (d, none)
  setChannelPolicy := fun _ d => (d, none)

/-- A remote with the channel in the given state and no call received. -/
def remoteIn (state : String) : Remote :=
  ⟨state, "arn:aws:mediatailor:eu-central-1:1:channel/c1", none, [], [], []⟩

/-- A client that fails exactly the calls `bad` holds of, with error text `e`. -/
def failingClient (bad : Call → Bool) (e : String) : Client :=
  fun _ c => if bad c then some e else none

/-- A remote holding a source location with the given on-demand and live
children and no call received. -/
def remoteWithSources (vod live : List String) : Remote :=
  ⟨"STOPPED", "arn:aws:mediatailor:eu-central-1:1:sourceLocation/c1", none, vod, live, []⟩

/-- A channel record named `c1` whose only change is a new tag. -/
def tagsOnlyData : ResourceData :=
  ⟨"", "c1", "", "", "", [], [("env", "prod")], ""⟩

/-- Record helpers whose `setChannel` fails. -/
def failingSetChannel : Helpers where
  getResourceName := fun d => .ok d.name
  setChannel := fun _ d => (d, some "arn: invalid or unknown key")
  setChannelPolicy := fun _ d => (d, none)

/-- Record helpers whose `setChannelPolicy` fails. -/
def failingSetChannelPolicy : Helpers where
  getResourceName := fun d => .ok d.name
  setChannel := fun _ d => (d, none)
  setChannelPolicy := fun _ d => (d, some "policy: invalid or unknown key")

/-- A playback configuration without a CDN section. -/
def configurationWithoutCdn : GetPlaybackConfigurationOutput :=
  ⟨some "https://ads.example.com", none, some ⟨none, none⟩, some "p1", none, [], none, none⟩

/-- A playback configuration without a DASH section. -/
def configurationWithoutDash : GetPlaybackConfigurationOutput :=
  ⟨some "https://ads.example.com", some ⟨none, none⟩, none, some "p1", none, [], none, none⟩

/-- A source-location record that has lost its name and keeps its identifier. -/
def namelessSourceLocation : ResourceData :=
  ⟨"arn:aws:mediatailor:eu-central-1:1:sourceLocation/c1", "", "", "", "", [], [], ""⟩

/-- Two tag maps for the differ: one tag kept, one changed, one dropped, one new. -/
def sampleOldTags : Tags := [("env", "dev"), ("team", "video"), ("tmp", "1")]

/-- The new tag map: `env` changed, `team` kept, `tmp` dropped, `owner` new. -/
def sampleNewTags : Tags := [("env", "prod"), ("team", "video"), ("owner", "ops")]

/-- A channel record named `c1` whose only change is a new policy document. -/
def policyOnlyData : ResourceData :=
  ⟨"", "c1", "", "", "allow-all", [], [], ""⟩

/-- A record named `c1` with the same tag on both sides of the change. -/
def sameTagsData : ResourceData :=
  ⟨"", "c1", "", "", "", [("env", "prod")], [("env", "prod")], ""⟩

/-- A channel record named `c1` that declares no `channel_state` and keeps
STOPPED from the prior state. -/
def undeclaredAfterStopped : ResourceData :=
  ⟨"", "c1", "", "", "", [], [], "STOPPED"⟩

/-- A channel record named `c1` that declares no `channel_state`, keeps STOPPED
from the prior state, and whose only change is a new tag. -/
def tagsOnlyAfterStopped : ResourceData :=
  ⟨"", "c1", "", "", "", [], [("env", "prod")], "STOPPED"⟩

/-- A channel record named `c1` with the given declared `channel_state` and none
in the prior state. -/
def channelData (state : String) : ResourceData :=
  ⟨"", "c1", state, "", "", [], [], ""⟩

end Awsmt

/-! # Theorems -/

namespace Awsmt

/-! ## The remote client -/

theorem call_trace (cl : Client) (c : Call) (r : Remote) :
    (call cl c r).2.trace = r.trace ++ [c] := by
  unfold call; cases cl r.trace c <;> rfl

theorem call_fst (cl : Client) (c : Call) (r : Remote) :
    (call cl c r).1 = cl r.trace c := by
  unfold call; cases cl r.trace c <;> rfl

/-! ## The `channel_state` the record gives -/

theorem string_length_eq_zero (s : String) : s.length = 0 ↔ s = "" := by
  cases s with
  | mk l =>
    cases l with
    | nil => exact ⟨fun _ => rfl, fun _ => rfl⟩
    | cons c cs =>
      constructor
      · intro h; simp [String.length] at h
      · intro h; exact absurd (congrArg String.data h) (by simp)

/-- The record gives the declared `channel_state`, or the one of the prior state
when none is declared. -/
theorem channelState_eq (d : ResourceData) :
    d.channelState =
      if d.configChannelState = "" then d.priorChannelState else d.configChannelState := by
  unfold ResourceData.channelState channelStateDiffSuppress
  by_cases hc : d.configChannelState = ""
  · simp [hc]
  · have : d.configChannelState.length ≠ 0 := fun hl => hc ((string_length_eq_zero _).1 hl)
    simp [hc, this]

/-! ## The policy comparison -/

theorem replaceAllEmpty_policyRe (l : List Char) :
    replaceAllEmpty policyRe l = l.filter fun c => !isPerlSpace c := by
  induction l with
  | nil => rfl
  | cons c cs ih =>
    rw [replaceAllEmpty, ih]
    by_cases hc : isPerlSpace c = true
    · simp [matchAlt, policyRe, matchOpt, hc]
    · simp [matchAlt, policyRe, matchOpt, hc]

theorem stripWhitespace_eq (s : String) :
    stripWhitespace s = s.toList.filter fun c => !isPerlSpace c := by
  unfold stripWhitespace
  congr 1
  funext c
  simp only [isPerlSpace]
  cases decide (c = ' ') <;> cases decide (c = '\t') <;> cases decide (c = '\r') <;>
    cases decide (c = '\n') <;> cases decide (c = '\x0c') <;> rfl

/-- Claim C10: the policy `DiffSuppressFunc` returns true exactly when the two
documents are equal once every space, tab, carriage return, line feed and form
feed is removed; documents that differ by inserted whitespace compare equal;
the comparison is reflexive, symmetric and transitive. -/
theorem policyDiffSuppress_whitespace_insensitive :
    (∀ old new : String,
      policyDiffSuppress old new = true ↔ stripWhitespace old = stripWhitespace new) ∧
    (∀ xs ws ys : List Char, (∀ c ∈ ws, c ∈ [' ', '\t', '\r', '\n', '\x0c']) →
      policyDiffSuppress (String.mk (xs ++ ys)) (String.mk (xs ++ ws ++ ys)) = true) ∧
    (∀ a : String, policyDiffSuppress a a = true) ∧
    (∀ a b : String, policyDiffSuppress a b = true → policyDiffSuppress b a = true) ∧
    (∀ a b c : String, policyDiffSuppress a b = true → policyDiffSuppress b c = true →
      policyDiffSuppress a c = true) := by
  have key : ∀ old new : String,
      policyDiffSuppress old new = true ↔ stripWhitespace old = stripWhitespace new := by
    intro old new
    simp [policyDiffSuppress, replaceAllEmpty_policyRe, stripWhitespace_eq]
  refine ⟨key, ?_, ?_, ?_, ?_⟩
  · intro xs ws ys hws
    rw [key]
    simp only [stripWhitespace_eq, String.toList, List.filter_append]
    have : ws.filter (fun c => !isPerlSpace c) = [] := by
      rw [List.filter_eq_nil_iff]
      intro c hc
      have := hws c hc
      simp only [List.mem_cons, List.mem_singleton, List.not_mem_nil, or_false] at this
      rcases this with h | h | h | h | h <;> subst h <;> decide
    rw [this, List.append_nil]
  · intro a; rw [key]
  · intro a b; rw [key, key]; exact Eq.symm
  · intro a b c; rw [key, key, key]; exact Eq.trans

/-! ## Issued calls -/

theorem issued_of_trace {r1 r2 : Remote} {cs : List Call} (h : r2.trace = r1.trace ++ cs) :
    issued r1 r2 = cs := by
  unfold issued; rw [h]; exact List.drop_left _ _

/-! ## Channel delete -/

/-- The three outcomes of `resourceChannelDelete`, by the first call that
fails. -/
theorem resourceChannelDelete_cases (cl : Client) (d : ResourceData) (r : Remote) :
    (∃ e, cl r.trace (.StopChannel d.name) = some e ∧
      resourceChannelDelete cl d r =
        ⟨["error while stopping the channel: " ++ e], d,
          { r with trace := r.trace ++ [.StopChannel d.name] }⟩) ∨
    (∃ e, cl r.trace (.StopChannel d.name) = none ∧
      cl (r.trace ++ [.StopChannel d.name]) (.DeleteChannelPolicy d.name) = some e ∧
      (resourceChannelDelete cl d r).diags =
        ["error while deleting the channel policy: " ++ e] ∧
      (resourceChannelDelete cl d r).remote.trace =
        r.trace ++ [.StopChannel d.name, .DeleteChannelPolicy d.name]) ∨
    (cl r.trace (.StopChannel d.name) = none ∧
      cl (r.trace ++ [.StopChannel d.name]) (.DeleteChannelPolicy d.name) = none ∧
      (resourceChannelDelete cl d r).diags =
        (match cl (r.trace ++ [.StopChannel d.name, .DeleteChannelPolicy d.name])
            (.DeleteChannel d.name) with
          | some e => ["error while deleting the resource: " ++ e]
          | none => []) ∧
      (resourceChannelDelete cl d r).remote.trace =
        r.trace ++ [.StopChannel d.name, .DeleteChannelPolicy d.name,
          .DeleteChannel d.name]) := by
  cases h1 : cl r.trace (.StopChannel d.name) with
  | some e => left; exact ⟨e, rfl, by simp [resourceChannelDelete, call, h1]⟩
  | none =>
    right
    cases h2 : cl (r.trace ++ [.StopChannel d.name]) (.DeleteChannelPolicy d.name) with
    | some e =>
      left
      exact ⟨e, rfl, rfl, by simp [resourceChannelDelete, call, h1, h2],
        by simp [resourceChannelDelete, call, h1, h2]⟩
    | none =>
      right
      refine ⟨rfl, rfl, ?_⟩
      cases h3 : cl (r.trace ++ [.StopChannel d.name, .DeleteChannelPolicy d.name])
          (.DeleteChannel d.name) with
      | some e => simp [resourceChannelDelete, call, h1, h2, h3]
      | none => simp [resourceChannelDelete, call, h1, h2, h3]

/-- Claim C5: `resourceChannelDelete` issues `StopChannel`, `DeleteChannelPolicy`
and `DeleteChannel` for the channel name in that order, each at most once; a
failing call is the last one issued; `DeleteChannelPolicy` is issued exactly when
the stop succeeded, `DeleteChannel` exactly when the stop and the policy deletion
succeeded, and no error is returned exactly when all three succeeded. -/
theorem resourceChannelDelete_order (cl : Client) (d : ResourceData) (r : Remote) :
    issued r (resourceChannelDelete cl d r).remote <+:
      [.StopChannel d.name, .DeleteChannelPolicy d.name, .DeleteChannel d.name] ∧
    Call.StopChannel d.name ∈ issued r (resourceChannelDelete cl d r).remote ∧
    (Call.DeleteChannelPolicy d.name ∈ issued r (resourceChannelDelete cl d r).remote ↔
      cl r.trace (.StopChannel d.name) = none) ∧
    (Call.DeleteChannel d.name ∈ issued r (resourceChannelDelete cl d r).remote ↔
      cl r.trace (.StopChannel d.name) = none ∧
      cl (r.trace ++ [.StopChannel d.name]) (.DeleteChannelPolicy d.name) = none) ∧
    ((resourceChannelDelete cl d r).diags = [] ↔
      cl r.trace (.StopChannel d.name) = none ∧
      cl (r.trace ++ [.StopChannel d.name]) (.DeleteChannelPolicy d.name) = none ∧
      cl (r.trace ++ [.StopChannel d.name, .DeleteChannelPolicy d.name])
        (.DeleteChannel d.name) = none) := by
  rcases resourceChannelDelete_cases cl d r with ⟨e, h1, h⟩ | ⟨e, h1, h2, hd, ht⟩ |
    ⟨h1, h2, hd, ht⟩
  · rw [h, @issued_of_trace r _ [.StopChannel d.name] rfl]
    simp [h1, List.prefix_iff_eq_append]
  · rw [hd, issued_of_trace ht]
    simp [h1, h2, List.prefix_iff_eq_append]
  · rw [hd, issued_of_trace ht]
    simp only [h1, h2, true_and, List.prefix_rfl, List.mem_cons, true_or, or_true]
    cases cl (r.trace ++ [.StopChannel d.name, .DeleteChannelPolicy d.name])
      (.DeleteChannel d.name) <;> simp

/-- Claim C6, as the code has it: an error from the stop call or from the policy
deletion is fatal whatever its text; the later calls are not issued and the
wrapped error is returned. `DeleteChannel` is reached when both calls return
without error. -/
theorem resourceChannelDelete_errors_fatal (cl : Client) (d : ResourceData) (r : Remote) :
    (∀ e, cl r.trace (.StopChannel d.name) = some e →
      (resourceChannelDelete cl d r).diags = ["error while stopping the channel: " ++ e] ∧
      issued r (resourceChannelDelete cl d r).remote = [.StopChannel d.name]) ∧
    (∀ e, cl r.trace (.StopChannel d.name) = none →
      cl (r.trace ++ [.StopChannel d.name]) (.DeleteChannelPolicy d.name) = some e →
      (resourceChannelDelete cl d r).diags =
        ["error while deleting the channel policy: " ++ e] ∧
      issued r (resourceChannelDelete cl d r).remote =
        [.StopChannel d.name, .DeleteChannelPolicy d.name]) ∧
    (cl r.trace (.StopChannel d.name) = none →
      cl (r.trace ++ [.StopChannel d.name]) (.DeleteChannelPolicy d.name) = none →
      issued r (resourceChannelDelete cl d r).remote =
        [.StopChannel d.name, .DeleteChannelPolicy d.name, .DeleteChannel d.name]) := by
  rcases resourceChannelDelete_cases cl d r with ⟨e, h1, h⟩ | ⟨e, h1, h2, hd, ht⟩ |
    ⟨h1, h2, hd, ht⟩
  · rw [h, @issued_of_trace r _ [.StopChannel d.name] rfl]
    simp [h1]
  · rw [hd, issued_of_trace ht]
    simp [h1, h2]
  · rw [issued_of_trace ht]
    simp [h1, h2]

/-- Witness for C6: the policy deletion fails with a "NotFound" text. -/
theorem resourceChannelDelete_errors_fatal_witness :
    (resourceChannelDelete
        (failingClient (fun c => c = .DeleteChannelPolicy "c1") "NotFoundException: no policy")
        (channelData "") (remoteIn "RUNNING")).diags =
      ["error while deleting the channel policy: " ++ "NotFoundException: no policy"] ∧
    issued (remoteIn "RUNNING") (resourceChannelDelete
        (failingClient (fun c => c = .DeleteChannelPolicy "c1") "NotFoundException: no policy")
        (channelData "") (remoteIn "RUNNING")).remote =
      [.StopChannel "c1", .DeleteChannelPolicy "c1"] :=
  (resourceChannelDelete_errors_fatal
    (failingClient (fun c => c = .DeleteChannelPolicy "c1") "NotFoundException: no policy")
    (channelData "") (remoteIn "RUNNING")).2.1 "NotFoundException: no policy"
    (by decide) (by decide)

/-- Counterexample to C6 as stated: a policy deletion that fails with a "not
found" error makes `resourceChannelDelete` return an error, and `DeleteChannel`
is not issued. -/
theorem resourceChannelDelete_notFound_not_tolerated :
    ¬ ∀ (cl : Client) (d : ResourceData) (r : Remote) (e : String),
      cl r.trace (.StopChannel d.name) = none →
      cl (r.trace ++ [.StopChannel d.name]) (.DeleteChannelPolicy d.name) = some e →
      stringsContains e "NotFound" = true →
      (resourceChannelDelete cl d r).diags = [] ∧
      Call.DeleteChannel d.name ∈ issued r (resourceChannelDelete cl d r).remote := by
  intro h
  have := h (failingClient (fun c => c = .DeleteChannelPolicy "c1") "NotFoundException: no policy")
    (channelData "") (remoteIn "RUNNING") "NotFoundException: no policy"
    (by decide) (by decide) (by decide)
  revert this
  decide

/-! ## Channel read -/

/-- Claim C7: in `resourceChannelRead` a failed `DescribeChannel` gives an error
and the policy is not fetched; after a successful describe, a `GetChannelPolicy`
failure whose text contains "NotFound" is read as an absent policy and no error
is returned, every other `GetChannelPolicy` failure is returned as an error. -/
theorem resourceChannelRead_policy_best_effort (h : Helpers) (cl : Client) (d : ResourceData)
    (r : Remote) (n : String) (hn : h.getResourceName d = .ok n) :
    (∀ e, cl r.trace (.DescribeChannel n) = some e →
      (resourceChannelRead h cl d r).diags = ["error while retrieving the channel: " ++ e] ∧
      issued r (resourceChannelRead h cl d r).remote = [.DescribeChannel n]) ∧
    (∀ e, cl r.trace (.DescribeChannel n) = none →
      cl (r.trace ++ [.DescribeChannel n]) (.GetChannelPolicy n) = some e →
      stringsContains e "NotFound" = true →
      (resourceChannelRead h cl d r).diags = [] ∧
      (resourceChannelRead h cl d r).data =
        (h.setChannelPolicy none (h.setChannel ⟨r.arn, r.channelState⟩ d).1).1 ∧
      issued r (resourceChannelRead h cl d r).remote =
        [.DescribeChannel n, .GetChannelPolicy n]) ∧
    (∀ e, cl r.trace (.DescribeChannel n) = none →
      cl (r.trace ++ [.DescribeChannel n]) (.GetChannelPolicy n) = some e →
      stringsContains e "NotFound" = false →
      (resourceChannelRead h cl d r).diags =
        ["error while getting the channel policy: " ++ e]) ∧
    (cl r.trace (.DescribeChannel n) = none →
      cl (r.trace ++ [.DescribeChannel n]) (.GetChannelPolicy n) = none →
      (resourceChannelRead h cl d r).diags = [] ∧
      (resourceChannelRead h cl d r).data =
        (h.setChannelPolicy r.policy (h.setChannel ⟨r.arn, r.channelState⟩ d).1).1) := by
  refine ⟨?_, ?_, ?_, ?_⟩
  · intro e h1
    simp [resourceChannelRead, hn, call, h1, issued]
  · intro e h1 h2 h3
    simp [resourceChannelRead, hn, call, h1, h2, h3, issued, Remote.apply]
  · intro e h1 h2 h3
    simp [resourceChannelRead, hn, call, h1, h2, h3, Remote.apply]
  · intro h1 h2
    simp [resourceChannelRead, hn, call, h1, h2, Remote.apply]

/-- Witness for C7: the policy fetch fails with a "NotFound" text and the read
returns no error. -/
theorem resourceChannelRead_policy_best_effort_witness :
    (resourceChannelRead plainHelpers
        (failingClient (fun c => c = .GetChannelPolicy "c1") "NotFoundException: no policy")
        (channelData "") (remoteIn "RUNNING")).diags = [] ∧
    (resourceChannelRead plainHelpers
        (failingClient (fun c => c = .GetChannelPolicy "c1") "NotFoundException: no policy")
        (channelData "") (remoteIn "RUNNING")).data =
      (plainHelpers.setChannelPolicy none
        (plainHelpers.setChannel
          ⟨(remoteIn "RUNNING").arn, (remoteIn "RUNNING").channelState⟩ (channelData "")).1).1 ∧
    issued (remoteIn "RUNNING") (resourceChannelRead plainHelpers
        (failingClient (fun c => c = .GetChannelPolicy "c1") "NotFoundException: no policy")
        (channelData "") (remoteIn "RUNNING")).remote =
      [.DescribeChannel "c1", .GetChannelPolicy "c1"] :=
  (resourceChannelRead_policy_best_effort plainHelpers
    (failingClient (fun c => c = .GetChannelPolicy "c1") "NotFoundException: no policy")
    (channelData "") (remoteIn "RUNNING") "c1" rfl).2.1 "NotFoundException: no policy"
    (by decide) (by decide) (by decide)

/-! ## Source-location delete -/

/-- The loop `deleteEach` issues the delete calls of a front part of the list,
fails exactly when one of them fails, and covers the whole list when it
succeeds. -/
theorem deleteEach_spec (cl : Client) (mk : String → Call) (ns : List String) (r : Remote) :
    ∃ cs, (deleteEach cl mk ns r).2.trace = r.trace ++ cs ∧ cs <+: ns.map mk ∧
      (deleteEach cl mk ns r).1.isSome = anyFailed cl r.trace cs ∧
      ((deleteEach cl mk ns r).1 = none → cs = ns.map mk) := by
  induction ns generalizing r with
  | nil => exact ⟨[], by simp [deleteEach], by simp, by simp [deleteEach, anyFailed], by simp⟩
  | cons n ns ih =>
    cases h1 : cl r.trace (mk n) with
    | some e =>
      refine ⟨[mk n], ?_, ?_, ?_, ?_⟩
      · simp [deleteEach, call, h1]
      · simp [List.prefix_iff_eq_append]
      · simp [deleteEach, call, h1, anyFailed]
      · simp [deleteEach, call, h1]
    | none =>
      obtain ⟨cs, ht, hp, hf, hn⟩ :=
        ih { r.apply (mk n) with trace := r.trace ++ [mk n] }
      refine ⟨mk n :: cs, ?_, ?_, ?_, ?_⟩
      · simp only [deleteEach, call, h1]
        rw [ht]; simp
      · simpa [List.map_cons, List.cons_prefix_cons] using hp
      · simp only [deleteEach, call, h1, anyFailed, Option.isSome_none, Bool.false_or]
        rw [hf]
      · intro h
        simp only [deleteEach, call, h1] at h
        rw [hn h]; rfl

theorem deleteVodSources_spec (cl : Client) (loc : String) (r : Remote) :
    ∃ cs, (deleteVodSources cl loc r).2.trace = r.trace ++ cs ∧
      cs <+: .ListVodSources loc :: r.vodSources.map (.DeleteVodSource loc) ∧
      (deleteVodSources cl loc r).1.isSome = anyFailed cl r.trace cs ∧
      ((deleteVodSources cl loc r).1 = none →
        cs = .ListVodSources loc :: r.vodSources.map (.DeleteVodSource loc)) := by
  cases h1 : cl r.trace (.ListVodSources loc) with
  | some e =>
    refine ⟨[.ListVodSources loc], ?_, ?_, ?_, ?_⟩
    · simp [deleteVodSources, call, h1]
    · simp [List.prefix_iff_eq_append]
    · simp [deleteVodSources, call, h1, anyFailed]
    · simp [deleteVodSources, call, h1]
  | none =>
    obtain ⟨cs, ht, hp, hf, hn⟩ := deleteEach_spec cl (.DeleteVodSource loc) r.vodSources
      { r with trace := r.trace ++ [.ListVodSources loc] }
    refine ⟨.ListVodSources loc :: cs, ?_, ?_, ?_, ?_⟩
    · simp only [deleteVodSources, call, h1, Remote.apply]
      rw [ht]; simp
    · simpa [List.cons_prefix_cons] using hp
    · simp only [deleteVodSources, call, h1, Remote.apply, anyFailed, Option.isSome_none,
        Bool.false_or]
      rw [hf]
    · intro h
      simp only [deleteVodSources, call, h1, Remote.apply] at h
      rw [hn h]

theorem deleteLiveSources_spec (cl : Client) (loc : String) (r : Remote) :
    ∃ cs, (deleteLiveSources cl loc r).2.trace = r.trace ++ cs ∧
      cs <+: .ListLiveSources loc :: r.liveSources.map (.DeleteLiveSource loc) ∧
      (deleteLiveSources cl loc r).1.isSome = anyFailed cl r.trace cs ∧
      ((deleteLiveSources cl loc r).1 = none →
        cs = .ListLiveSources loc :: r.liveSources.map (.DeleteLiveSource loc)) := by
  cases h1 : cl r.trace (.ListLiveSources loc) with
  | some e =>
    refine ⟨[.ListLiveSources loc], ?_, ?_, ?_, ?_⟩
    · simp [deleteLiveSources, call, h1]
    · simp [List.prefix_iff_eq_append]
    · simp [deleteLiveSources, call, h1, anyFailed]
    · simp [deleteLiveSources, call, h1]
  | none =>
    obtain ⟨cs, ht, hp, hf, hn⟩ := deleteEach_spec cl (.DeleteLiveSource loc) r.liveSources
      { r with trace := r.trace ++ [.ListLiveSources loc] }
    refine ⟨.ListLiveSources loc :: cs, ?_, ?_, ?_, ?_⟩
    · simp only [deleteLiveSources, call, h1, Remote.apply]
      rw [ht]; simp
    · simpa [List.cons_prefix_cons] using hp
    · simp only [deleteLiveSources, call, h1, Remote.apply, anyFailed, Option.isSome_none,
        Bool.false_or]
      rw [hf]
    · intro h
      simp only [deleteLiveSources, call, h1, Remote.apply] at h
      rw [hn h]

/-- Claim C8: `resourceSourceLocationDelete` runs the on-demand step, the live
step and `DeleteSourceLocation` in this order. The parent delete is issued
exactly when both child steps succeeded; a failed on-demand step returns its
error with nothing issued after it, a failed live step likewise; each step fails
exactly when one of its calls fails, and issues only list and child-delete calls
of its own kind. -/
theorem resourceSourceLocationDelete_cascade (cl : Client) (d : ResourceData) (r : Remote) :
    (Call.DeleteSourceLocation d.name ∈ issued r (resourceSourceLocationDelete cl d r).remote ↔
      (vodStep cl d r).1 = none ∧ (liveStep cl d r).1 = none) ∧
    (∀ e, (vodStep cl d r).1 = some e →
      (resourceSourceLocationDelete cl d r).diags = [e] ∧
      (resourceSourceLocationDelete cl d r).remote = (vodStep cl d r).2) ∧
    (∀ e, (vodStep cl d r).1 = none → (liveStep cl d r).1 = some e →
      (resourceSourceLocationDelete cl d r).diags = [e] ∧
      (resourceSourceLocationDelete cl d r).remote = (liveStep cl d r).2) ∧
    ((vodStep cl d r).1 = none → (liveStep cl d r).1 = none →
      issued r (resourceSourceLocationDelete cl d r).remote =
        (.ListVodSources d.name :: r.vodSources.map (.DeleteVodSource d.name)) ++
        (.ListLiveSources d.name ::
          (vodStep cl d r).2.liveSources.map (.DeleteLiveSource d.name)) ++
        [.DeleteSourceLocation d.name]) ∧
    issued r (vodStep cl d r).2 <+:
      .ListVodSources d.name :: r.vodSources.map (.DeleteVodSource d.name) ∧
    issued (vodStep cl d r).2 (liveStep cl d r).2 <+:
      .ListLiveSources d.name ::
        (vodStep cl d r).2.liveSources.map (.DeleteLiveSource d.name) ∧
    (vodStep cl d r).1.isSome = anyFailed cl r.trace (issued r (vodStep cl d r).2) ∧
    (liveStep cl d r).1.isSome =
      anyFailed cl (vodStep cl d r).2.trace (issued (vodStep cl d r).2 (liveStep cl d r).2) := by
  obtain ⟨vs, hvt, hvp, hvf, hvn⟩ := deleteVodSources_spec cl d.name r
  obtain ⟨ls, hlt, hlp, hlf, hln⟩ :=
    deleteLiveSources_spec cl d.name (deleteVodSources cl d.name r).2
  simp only [vodStep, liveStep]
  rw [issued_of_trace hvt, issued_of_trace hlt]
  refine ⟨?_, ?_, ?_, ?_, hvp, hlp, hvf, hlf⟩
  · rcases hv : deleteVodSources cl d.name r with ⟨_ | e, r1⟩
    · rw [hv] at hvt hlt hln
      dsimp only at hvt hlt hln
      rcases hl : deleteLiveSources cl d.name r1 with ⟨_ | e, r2⟩
      · rw [hl] at hlt
        dsimp only at hlt
        have ht : (resourceSourceLocationDelete cl d r).remote.trace =
            r.trace ++ (vs ++ ls ++ [.DeleteSourceLocation d.name]) := by
          simp only [resourceSourceLocationDelete, hv, hl]
          have h3 := call_trace cl (.DeleteSourceLocation d.name) r2
          rcases h4 : call cl (.DeleteSourceLocation d.name) r2 with ⟨_ | e, r3⟩ <;>
            rw [h4] at h3 <;> simp_all
        rw [issued_of_trace ht]
        simp
      · rw [hl] at hlt
        dsimp only at hlt
        have ht : (resourceSourceLocationDelete cl d r).remote.trace =
            r.trace ++ (vs ++ ls) := by
          simp [resourceSourceLocationDelete, hv, hl, hlt, hvt]
        rw [issued_of_trace ht]
        have h1 : Call.DeleteSourceLocation d.name ∉ vs := fun hm => by
          have := hvp.subset hm
          simp at this
        have h2 : Call.DeleteSourceLocation d.name ∉ ls := fun hm => by
          have := hlp.subset hm
          simp at this
        simp [h1, h2]
    · have ht : (resourceSourceLocationDelete cl d r).remote.trace = r.trace ++ vs := by
        rw [hv] at hvt
        dsimp only at hvt
        simp [resourceSourceLocationDelete, hv, hvt]
      rw [issued_of_trace ht]
      have h1 : Call.DeleteSourceLocation d.name ∉ vs := fun hm => by
        have := hvp.subset hm
        simp at this
      simp [h1]
  · intro e hv
    rcases hv' : deleteVodSources cl d.name r with ⟨_ | e', r1⟩
    · rw [hv'] at hv; simp at hv
    · rw [hv'] at hv
      simp only [Option.some.injEq] at hv
      subst hv
      simp [resourceSourceLocationDelete, hv']
  · intro e hv hl
    rcases hv' : deleteVodSources cl d.name r with ⟨_ | e', r1⟩
    · rw [hv'] at hl
      rcases hl' : deleteLiveSources cl d.name r1 with ⟨_ | e', r2⟩
      · rw [hl'] at hl; simp at hl
      · rw [hl'] at hl
        simp only [Option.some.injEq] at hl
        subst hl
        simp [resourceSourceLocationDelete, hv', hl']
    · rw [hv'] at hv; simp at hv
  · intro hv hl
    have hvs := hvn hv
    have hls := hln hl
    rcases hv' : deleteVodSources cl d.name r with ⟨_ | e', r1⟩
    · rw [hv'] at hl hlt hls
      dsimp only at hl hlt hls
      rcases hl' : deleteLiveSources cl d.name r1 with ⟨_ | e', r2⟩
      · rw [hv'] at hvt
        rw [hl'] at hlt
        dsimp only at hvt hlt
        have ht : (resourceSourceLocationDelete cl d r).remote.trace =
            r.trace ++ (vs ++ ls ++ [.DeleteSourceLocation d.name]) := by
          simp only [resourceSourceLocationDelete, hv', hl']
          have h3 := call_trace cl (.DeleteSourceLocation d.name) r2
          rcases h4 : call cl (.DeleteSourceLocation d.name) r2 with ⟨_ | e, r3⟩ <;>
            rw [h4] at h3 <;> simp_all
        rw [issued_of_trace ht, hvs, hls]
      · rw [hl'] at hl; simp at hl
    · rw [hv'] at hv; simp at hv

/-- Witness for C8: a location with two on-demand children and one live child,
the delete of the second on-demand child failing; the error is returned and
neither a live call nor the parent delete is issued. -/
theorem resourceSourceLocationDelete_cascade_witness :
    (resourceSourceLocationDelete
        (failingClient (fun c => c = .DeleteVodSource "c1" "v2") "BadRequestException")
        (channelData "") (remoteWithSources ["v1", "v2"] ["l1"])).diags =
      ["BadRequestException"] ∧
    (resourceSourceLocationDelete
        (failingClient (fun c => c = .DeleteVodSource "c1" "v2") "BadRequestException")
        (channelData "") (remoteWithSources ["v1", "v2"] ["l1"])).remote =
      (vodStep (failingClient (fun c => c = .DeleteVodSource "c1" "v2") "BadRequestException")
        (channelData "") (remoteWithSources ["v1", "v2"] ["l1"])).2 :=
  (resourceSourceLocationDelete_cascade
    (failingClient (fun c => c = .DeleteVodSource "c1" "v2") "BadRequestException")
    (channelData "") (remoteWithSources ["v1", "v2"] ["l1"])).2.1 "BadRequestException"
    (by decide)

/-! ## Channel create -/

/-- The read-back issues only `DescribeChannel` and `GetChannelPolicy` and leaves
the operational state of the channel as it is. -/
theorem resourceChannelRead_issued (h : Helpers) (cl : Client) (d : ResourceData) (r : Remote) :
    ∃ cs, (resourceChannelRead h cl d r).remote.trace = r.trace ++ cs ∧
      (∀ c ∈ cs, c.isReadCall = true) ∧
      (resourceChannelRead h cl d r).remote.channelState = r.channelState := by
  unfold resourceChannelRead
  cases h.getResourceName d with
  | error e => exact ⟨[], by simp⟩
  | ok n =>
    cases h1 : cl r.trace (.DescribeChannel n) with
    | some e =>
      exact ⟨[.DescribeChannel n], by simp [call, h1, Call.isReadCall]⟩
    | none =>
      refine ⟨[.DescribeChannel n, .GetChannelPolicy n], ?_⟩
      cases h2 : cl (r.trace ++ [.DescribeChannel n]) (.GetChannelPolicy n) with
      | some e =>
        by_cases h3 : stringsContains e "NotFound" = true <;>
          simp [call, h1, h2, h3, Call.isReadCall, Remote.apply]
      | none => simp [call, h1, h2, Call.isReadCall, Remote.apply]

theorem checkStatusAndStartChannel_trace (cl : Client) (d : ResourceData) (r : Remote) :
    (checkStatusAndStartChannel cl d r).2.trace =
      r.trace ++ (if d.channelState = "RUNNING" then [.StartChannel d.name] else []) := by
  unfold checkStatusAndStartChannel startChannel
  split
  · exact call_trace _ _ _
  · simp

theorem createChannelPolicy_trace (cl : Client) (d : ResourceData) (r : Remote) :
    (createChannelPolicy cl d r).2.trace =
      r.trace ++ (if d.policy = "" then [] else [.PutChannelPolicy d.name d.policy]) := by
  unfold createChannelPolicy
  split
  · simp
  · exact call_trace _ _ _

/-- The shape of the trace `resourceChannelCreate` leaves: `CreateChannel`
first, then start, policy and read-back calls only; when the create call
succeeds and RUNNING is declared, `StartChannel` comes second and not again. -/
theorem resourceChannelCreate_trace (h : Helpers) (cl : Client) (d : ResourceData) (r : Remote) :
    ∃ rest, (resourceChannelCreate h cl d r).remote.trace =
        r.trace ++ .CreateChannel d.name :: rest ∧
      (∀ c ∈ rest, c = .StartChannel d.name ∨ c = .PutChannelPolicy d.name d.policy ∨
        c.isReadCall = true) ∧
      ((createStep cl d r).1 = none → d.channelState = "RUNNING" →
        ∃ rest', rest = .StartChannel d.name :: rest' ∧
          ∀ c ∈ rest', c = .PutChannelPolicy d.name d.policy ∨ c.isReadCall = true) := by
  have t1 := call_trace cl (.CreateChannel d.name) r
  unfold resourceChannelCreate createStep
  rcases h1 : call cl (.CreateChannel d.name) r with ⟨_ | e1, r1⟩
  · rw [h1] at t1
    dsimp only at t1 ⊢
    have t2 := checkStatusAndStartChannel_trace cl d r1
    rcases h2 : checkStatusAndStartChannel cl d r1 with ⟨_ | e2, r2⟩
    · rw [h2] at t2
      dsimp only at t2 ⊢
      have t3 := createChannelPolicy_trace cl d r2
      rcases h3 : createChannelPolicy cl d r2 with ⟨_ | e3, r3⟩
      · rw [h3] at t3
        dsimp only at t3 ⊢
        obtain ⟨cs, t4, hcs, -⟩ := resourceChannelRead_issued h cl { d with id := r1.arn } r3
        refine ⟨(if d.channelState = "RUNNING" then [.StartChannel d.name] else []) ++
          (if d.policy = "" then [] else [.PutChannelPolicy d.name d.policy]) ++ cs, ?_, ?_, ?_⟩
        · rw [t4, t3, t2, t1]; simp
        · intro c hc
          simp only [List.mem_append] at hc
          rcases hc with (hc | hc) | hc
          · split at hc <;> simp_all
          · split at hc <;> simp_all
          · exact Or.inr (Or.inr (hcs c hc))
        · intro _ hs
          refine ⟨(if d.policy = "" then [] else [.PutChannelPolicy d.name d.policy]) ++ cs,
            by simp [hs], ?_⟩
          intro c hc
          simp only [List.mem_append] at hc
          rcases hc with hc | hc
          · split at hc <;> simp_all
          · exact Or.inr (hcs c hc)
      · rw [h3] at t3
        dsimp only at t3 ⊢
        refine ⟨(if d.channelState = "RUNNING" then [.StartChannel d.name] else []) ++
          (if d.policy = "" then [] else [.PutChannelPolicy d.name d.policy]), ?_, ?_, ?_⟩
        · rw [t3, t2, t1]; simp
        · intro c hc
          simp only [List.mem_append] at hc
          rcases hc with hc | hc
          · split at hc <;> simp_all
          · split at hc <;> simp_all
        · intro _ hs
          refine ⟨(if d.policy = "" then [] else [.PutChannelPolicy d.name d.policy]),
            by simp [hs], ?_⟩
          intro c hc
          split at hc <;> simp_all
    · rw [h2] at t2
      dsimp only at t2 ⊢
      refine ⟨(if d.channelState = "RUNNING" then [.StartChannel d.name] else []), ?_, ?_, ?_⟩
      · rw [t2, t1]; simp
      · intro c hc
        split at hc <;> simp_all
      · intro _ hs
        exact ⟨[], by simp [hs], by simp⟩
  · rw [h1] at t1
    dsimp only at t1 ⊢
    exact ⟨[], by rw [t1], by simp, by simp⟩

/-- Claim C9: `resourceChannelCreate` runs `CreateChannel`, the start step, the
policy step, the identity assignment and the read-back in this order. A failed
step returns its error with the record untouched and the remote as the step left
it (nothing later is issued, nothing earlier is undone); the identity is set to
the ARN of the create response only when the three steps succeeded; when the
create call succeeds and RUNNING is declared, `StartChannel` is issued once, right
after `CreateChannel` and before the read-back. -/
theorem resourceChannelCreate_sequence (h : Helpers) (cl : Client) (d : ResourceData)
    (r : Remote) :
    (∀ e, (createStep cl d r).1 = some e →
      resourceChannelCreate h cl d r =
        ⟨["error while creating the channel: " ++ e], d, (createStep cl d r).2⟩ ∧
      issued r (resourceChannelCreate h cl d r).remote = [.CreateChannel d.name]) ∧
    (∀ e, (createStep cl d r).1 = none → (startStep cl d r).1 = some e →
      resourceChannelCreate h cl d r =
        ⟨["error while starting the channel: " ++ e], d, (startStep cl d r).2⟩) ∧
    (∀ e, (createStep cl d r).1 = none → (startStep cl d r).1 = none →
      (policyStep cl d r).1 = some e →
      resourceChannelCreate h cl d r = ⟨[e], d, (policyStep cl d r).2⟩) ∧
    ((createStep cl d r).1 = none → (startStep cl d r).1 = none →
      (policyStep cl d r).1 = none →
      resourceChannelCreate h cl d r =
        resourceChannelRead h cl { d with id := (createStep cl d r).2.arn }
          (policyStep cl d r).2) ∧
    (∃ rest, issued r (resourceChannelCreate h cl d r).remote = .CreateChannel d.name :: rest ∧
      (∀ c ∈ rest, c = .StartChannel d.name ∨ c = .PutChannelPolicy d.name d.policy ∨
        c.isReadCall = true) ∧
      ((createStep cl d r).1 = none → d.channelState = "RUNNING" →
        ∃ rest', rest = .StartChannel d.name :: rest' ∧
          ∀ c ∈ rest', c = .PutChannelPolicy d.name d.policy ∨ c.isReadCall = true)) := by
  refine ⟨?_, ?_, ?_, ?_, ?_⟩
  · intro e h1
    have t1 := call_trace cl (.CreateChannel d.name) r
    simp only [createStep] at h1 ⊢
    rcases h1' : call cl (.CreateChannel d.name) r with ⟨_ | e1, r1⟩
    · rw [h1'] at h1; simp at h1
    · rw [h1'] at h1 t1
      simp only [Option.some.injEq] at h1
      subst h1
      simp only [resourceChannelCreate, h1']
      exact ⟨trivial, issued_of_trace t1⟩
  · intro e h1 h2
    simp only [startStep, createStep] at h1 h2 ⊢
    rcases h1' : call cl (.CreateChannel d.name) r with ⟨_ | e1, r1⟩
    · rw [h1'] at h2
      rcases h2' : checkStatusAndStartChannel cl d r1 with ⟨_ | e2, r2⟩
      · rw [h2'] at h2; simp at h2
      · rw [h2'] at h2
        simp only [Option.some.injEq] at h2
        subst h2
        simp only [resourceChannelCreate, h1', h2']
    · rw [h1'] at h1; simp at h1
  · intro e h1 h2 h3
    simp only [policyStep, startStep, createStep] at h1 h2 h3 ⊢
    rcases h1' : call cl (.CreateChannel d.name) r with ⟨_ | e1, r1⟩
    · rw [h1'] at h2 h3
      rcases h2' : checkStatusAndStartChannel cl d r1 with ⟨_ | e2, r2⟩
      · rw [h2'] at h3
        rcases h3' : createChannelPolicy cl d r2 with ⟨_ | e3, r3⟩
        · rw [h3'] at h3; simp at h3
        · rw [h3'] at h3
          simp only [Option.some.injEq] at h3
          subst h3
          simp only [resourceChannelCreate, h1', h2', h3']
      · rw [h2'] at h2; simp at h2
    · rw [h1'] at h1; simp at h1
  · intro h1 h2 h3
    simp only [policyStep, startStep, createStep] at h1 h2 h3 ⊢
    rcases h1' : call cl (.CreateChannel d.name) r with ⟨_ | e1, r1⟩
    · rw [h1'] at h2 h3
      rcases h2' : checkStatusAndStartChannel cl d r1 with ⟨_ | e2, r2⟩
      · rw [h2'] at h3
        rcases h3' : createChannelPolicy cl d r2 with ⟨_ | e3, r3⟩
        · simp only [resourceChannelCreate, h1', h2', h3']
        · rw [h3'] at h3; simp at h3
      · rw [h2'] at h2; simp at h2
    · rw [h1'] at h1; simp at h1
  · obtain ⟨rest, ht, hr, hs⟩ := resourceChannelCreate_trace h cl d r
    exact ⟨rest, issued_of_trace ht, hr, hs⟩

/-- Witness for C9: the create call is rejected; the wrapped error is returned,
the record keeps its empty identity and only `CreateChannel` was issued. -/
theorem resourceChannelCreate_sequence_witness :
    resourceChannelCreate plainHelpers
        (failingClient (fun c => c = .CreateChannel "c1") "BadRequestException")
        (channelData "RUNNING") (remoteIn "STOPPED") =
      ⟨["error while creating the channel: " ++ "BadRequestException"], channelData "RUNNING",
        (createStep (failingClient (fun c => c = .CreateChannel "c1") "BadRequestException")
          (channelData "RUNNING") (remoteIn "STOPPED")).2⟩ ∧
    issued (remoteIn "STOPPED") (resourceChannelCreate plainHelpers
        (failingClient (fun c => c = .CreateChannel "c1") "BadRequestException")
        (channelData "RUNNING") (remoteIn "STOPPED")).remote = [.CreateChannel "c1"] :=
  (resourceChannelCreate_sequence plainHelpers
    (failingClient (fun c => c = .CreateChannel "c1") "BadRequestException")
    (channelData "RUNNING") (remoteIn "STOPPED")).1 "BadRequestException" (by decide)

/-! ## Channel update: the steps -/

theorem call_state_of_not_stateCall (cl : Client) (c : Call) (r : Remote)
    (hc : c.isStateCall = false) (hn : ∀ n, c ≠ .CreateChannel n) :
    (call cl c r).2.channelState = r.channelState ∧ (call cl c r).2.arn = r.arn := by
  unfold call
  cases cl r.trace c with
  | some e => exact ⟨rfl, rfl⟩
  | none =>
    cases c <;> simp_all [Remote.apply, Call.isStateCall]

theorem call_arn (cl : Client) (c : Call) (r : Remote) : (call cl c r).2.arn = r.arn := by
  unfold call
  cases cl r.trace c with
  | some e => rfl
  | none => cases c <;> rfl

theorem call_isSome (cl : Client) (c : Call) (r : Remote) (h : (call cl c r).1.isSome = true) :
    (cl r.trace c).isSome = true := by
  rw [call_fst] at h; exact h

/-- The step `updateTags`: it issues a front part of `tagCalls`, all of it when
it succeeds, leaves state and ARN alone, and fails only when a tag call fails. -/
theorem updateTags_spec (cl : Client) (arn : String) (old new : Tags) (r : Remote) :
    ∃ cs, (updateTags cl arn old new r).2.trace = r.trace ++ cs ∧
      cs <+: tagCalls arn old new ∧
      (updateTags cl arn old new r).2.channelState = r.channelState ∧
      (updateTags cl arn old new r).2.arn = r.arn ∧
      ((updateTags cl arn old new r).1 = none → cs = tagCalls arn old new) ∧
      ((updateTags cl arn old new r).1.isSome = true →
        ∃ t c, c.isTagCall = true ∧ (cl t c).isSome = true) := by
  unfold updateTags tagCalls
  by_cases hr : (removedTags old new).isEmpty = true
  · simp only [hr, if_true]
    by_cases ha : (addedTags old new).isEmpty = true
    · simp only [ha, if_true]
      exact ⟨[], by simp⟩
    · simp only [ha]
      refine ⟨[.TagResource arn (addedTags old new)], by simp [call_trace], by simp, ?_, ?_,
        by simp, ?_⟩
      · exact (call_state_of_not_stateCall cl (.TagResource arn (addedTags old new)) r rfl
          (by simp)).1
      · exact call_arn _ _ _
      · intro hf
        exact ⟨r.trace, .TagResource arn (addedTags old new), rfl, call_isSome _ _ _ hf⟩
  · simp only [hr]
    cases h1 : cl r.trace (.UntagResource arn (removedTags old new)) with
    | some e =>
      refine ⟨[.UntagResource arn (removedTags old new)], ?_⟩
      simp only [call, h1, Bool.false_eq_true, if_false]
      refine ⟨trivial, by simp [List.prefix_iff_eq_append], trivial, trivial, by simp, ?_⟩
      intro _
      exact ⟨r.trace, .UntagResource arn (removedTags old new), rfl, by rw [h1]; rfl⟩
    | none =>
      simp only [call, h1, Bool.false_eq_true, if_false]
      by_cases ha : (addedTags old new).isEmpty = true
      · simp only [ha, if_true]
        exact ⟨[.UntagResource arn (removedTags old new)], by simp [Remote.apply]⟩
      · simp only [ha, Bool.false_eq_true, if_false]
        refine ⟨[.UntagResource arn (removedTags old new),
          .TagResource arn (addedTags old new)], ?_⟩
        cases h2 : cl (r.trace ++ [.UntagResource arn (removedTags old new)])
            (.TagResource arn (addedTags old new)) with
        | some e =>
          simp only [h2, Remote.apply]
          refine ⟨by simp, by simp, trivial, trivial, by simp, ?_⟩
          intro _
          exact ⟨r.trace ++ [.UntagResource arn (removedTags old new)],
            .TagResource arn (addedTags old new), rfl, by rw [h2]; rfl⟩
        | none =>
          simp only [h2, Remote.apply]
          exact ⟨by simp, by simp, trivial, trivial, by simp, by simp⟩

/-- The tag block of `resourceChannelUpdate`: it issues a front part of
`tagStepCalls`, all of it when it succeeds, leaves state and ARN alone, and
fails only when a describe or tag call fails. -/
theorem channelTagStep_spec (cl : Client) (d : ResourceData) (r : Remote) :
    ∃ cs, (channelTagStep cl d r).2.trace = r.trace ++ cs ∧
      cs <+: tagStepCalls d r.arn ∧
      (channelTagStep cl d r).2.channelState = r.channelState ∧
      (channelTagStep cl d r).2.arn = r.arn ∧
      ((channelTagStep cl d r).1 = none → cs = tagStepCalls d r.arn) ∧
      ((channelTagStep cl d r).1.isSome = true →
        ∃ t c, (c.isReadCall = true ∨ c.isTagCall = true) ∧ (cl t c).isSome = true) := by
  unfold channelTagStep tagStepCalls
  by_cases hc : d.hasChangeTags = true
  · simp only [hc, if_true]
    cases h1 : cl r.trace (.DescribeChannel d.name) with
    | some e =>
      refine ⟨[.DescribeChannel d.name], ?_⟩
      simp only [call, h1]
      refine ⟨trivial, by simp [List.prefix_iff_eq_append], trivial, trivial, by simp, ?_⟩
      intro _
      exact ⟨r.trace, .DescribeChannel d.name, Or.inl rfl, by rw [h1]; rfl⟩
    | none =>
      simp only [call, h1, Remote.apply]
      obtain ⟨cs, ht, hp, hs, ha, hn, hf⟩ := updateTags_spec cl r.arn d.oldTags d.tags
        { r with trace := r.trace ++ [.DescribeChannel d.name] }
      refine ⟨.DescribeChannel d.name :: cs, ?_, ?_, hs, ha, ?_, ?_⟩
      · rw [ht]; simp
      · simpa [List.cons_prefix_cons] using hp
      · intro h; rw [hn h]
      · intro h
        obtain ⟨t, c, hc', hcl⟩ := hf h
        exact ⟨t, c, Or.inr hc', hcl⟩
  · simp only [hc, Bool.false_eq_true, if_false]
    exact ⟨[], by simp⟩

/-- The step `updatePolicy`: it issues `policyCalls`, leaves state and ARN
alone, and fails only when its policy call fails. -/
theorem updatePolicy_spec (cl : Client) (d : ResourceData) (name : String) (r : Remote) :
    (updatePolicy cl d name r).2.trace = r.trace ++ policyCalls d name ∧
      (updatePolicy cl d name r).2.channelState = r.channelState ∧
      (updatePolicy cl d name r).2.arn = r.arn ∧
      ((updatePolicy cl d name r).1.isSome = true →
        ∃ t c, c.isPolicyCall = true ∧ (cl t c).isSome = true) ∧
      ((updatePolicy cl d name r).1 = none →
        ∀ c ∈ policyCalls d name, cl r.trace c = none) := by
  unfold updatePolicy policyCalls
  by_cases hs : policyDiffSuppress d.oldPolicy d.policy = true
  · simp [hs]
  · simp only [hs, Bool.false_eq_true, if_false]
    by_cases hp : d.policy = ""
    · simp only [hp, if_true]
      refine ⟨call_trace _ _ _,
        (call_state_of_not_stateCall cl (.DeleteChannelPolicy name) r rfl (by simp)).1,
        call_arn _ _ _, ?_, ?_⟩
      · intro hf
        exact ⟨r.trace, .DeleteChannelPolicy name, rfl, call_isSome _ _ _ hf⟩
      · intro hn c hc
        rw [List.mem_singleton] at hc
        rw [hc]
        rw [call_fst] at hn
        exact hn
    · simp only [hp, if_false]
      refine ⟨call_trace _ _ _,
        (call_state_of_not_stateCall cl (.PutChannelPolicy name d.policy) r rfl (by simp)).1,
        call_arn _ _ _, ?_, ?_⟩
      · intro hf
        exact ⟨r.trace, .PutChannelPolicy name d.policy, rfl, call_isSome _ _ _ hf⟩
      · intro hn c hc
        rw [List.mem_singleton] at hc
        rw [hc]
        rw [call_fst] at hn
        exact hn

/-! ## Channel update: the paths -/

theorem call_stop_state (cl : Client) (n : String) (r : Remote) :
    (call cl (.StopChannel n) r).2.channelState =
      if (cl r.trace (.StopChannel n)).isSome then r.channelState else "STOPPED" := by
  unfold call; cases cl r.trace (.StopChannel n) <;> rfl

theorem call_start_state (cl : Client) (n : String) (r : Remote) :
    (call cl (.StartChannel n) r).2.channelState =
      if (cl r.trace (.StartChannel n)).isSome then r.channelState else "RUNNING" := by
  unfold call; cases cl r.trace (.StartChannel n) <;> rfl

theorem call_update_state (cl : Client) (n : String) (r : Remote) :
    (call cl (.UpdateChannel n) r).2.channelState = r.channelState := by
  unfold call; cases cl r.trace (.UpdateChannel n) <;> rfl

/-- The paths of `resourceChannelUpdate`, by the step that fails: before the
stop decision, at the stop, at the policy step, at `UpdateChannel`, at the start,
or none before the read-back. Each path gives the diagnostics, the record, the
calls issued and the operational state the channel is left in. -/
theorem resourceChannelUpdate_cases (h : Helpers) (cl : Client) (d : ResourceData)
    (r : Remote) :
    (∃ pre e, pre <+: observeCalls d r.arn ∧
      (resourceChannelUpdate h cl d r).diags = [e] ∧
      (resourceChannelUpdate h cl d r).data = d ∧
      (resourceChannelUpdate h cl d r).remote.trace = r.trace ++ pre ∧
      (resourceChannelUpdate h cl d r).remote.channelState = r.channelState ∧
      ∃ t c, (c.isReadCall = true ∨ c.isTagCall = true) ∧ (cl t c).isSome = true) ∨
    (r.channelState = "RUNNING" ∧ ∃ e,
      (resourceChannelUpdate h cl d r).diags = [e] ∧
      (resourceChannelUpdate h cl d r).data = d ∧
      (resourceChannelUpdate h cl d r).remote.trace =
        r.trace ++ (observeCalls d r.arn ++ [.StopChannel d.name]) ∧
      (resourceChannelUpdate h cl d r).remote.channelState = r.channelState ∧
      cl (r.trace ++ observeCalls d r.arn) (.StopChannel d.name) = some e) ∨
    (∃ e,
      (resourceChannelUpdate h cl d r).diags = [e] ∧
      (resourceChannelUpdate h cl d r).data = d ∧
      (resourceChannelUpdate h cl d r).remote.trace =
        r.trace ++ (observeCalls d r.arn ++ stopPart r.channelState d.name ++
          policyCalls d d.name) ∧
      (resourceChannelUpdate h cl d r).remote.channelState = stateAfterStop r.channelState ∧
      ∃ t c, c.isPolicyCall = true ∧ (cl t c).isSome = true) ∨
    (∃ e,
      (resourceChannelUpdate h cl d r).diags = ["error while updating the channel: " ++ e] ∧
      (resourceChannelUpdate h cl d r).data = d ∧
      (resourceChannelUpdate h cl d r).remote.trace =
        r.trace ++ (observeCalls d r.arn ++ stopPart r.channelState d.name ++
          policyCalls d d.name ++ [.UpdateChannel d.name]) ∧
      (resourceChannelUpdate h cl d r).remote.channelState = stateAfterStop r.channelState ∧
      cl (r.trace ++ (observeCalls d r.arn ++ stopPart r.channelState d.name ++
          policyCalls d d.name)) (.UpdateChannel d.name) = some e) ∨
    (restartCondition r.channelState (newStatusFromSchema d) = true ∧ ∃ e,
      (resourceChannelUpdate h cl d r).diags = [e] ∧
      (resourceChannelUpdate h cl d r).data = d ∧
      (resourceChannelUpdate h cl d r).remote.trace =
        r.trace ++ (observeCalls d r.arn ++ stopPart r.channelState d.name ++
          policyCalls d d.name ++ [.UpdateChannel d.name, .StartChannel d.name]) ∧
      (resourceChannelUpdate h cl d r).remote.channelState = stateAfterStop r.channelState ∧
      cl (r.trace ++ (observeCalls d r.arn ++ stopPart r.channelState d.name ++
          policyCalls d d.name ++ [.UpdateChannel d.name])) (.StartChannel d.name) = some e ∧
      cl (r.trace ++ (observeCalls d r.arn ++ stopPart r.channelState d.name ++
          policyCalls d d.name)) (.UpdateChannel d.name) = none) ∨
    (∃ r6,
      resourceChannelUpdate h cl d r = resourceChannelRead h cl { d with id := r.arn } r6 ∧
      r6.trace = r.trace ++ (observeCalls d r.arn ++ stopPart r.channelState d.name ++
          policyCalls d d.name ++ [.UpdateChannel d.name] ++
          startPart r.channelState (newStatusFromSchema d) d.name) ∧
      r6.channelState = finalState r.channelState (newStatusFromSchema d) ∧
      r6.arn = r.arn ∧
      cl (r.trace ++ (observeCalls d r.arn ++ stopPart r.channelState d.name ++
          policyCalls d d.name)) (.UpdateChannel d.name) = none ∧
      ∀ c ∈ policyCalls d d.name,
        cl (r.trace ++ (observeCalls d r.arn ++ stopPart r.channelState d.name)) c = none) := by
  obtain ⟨cs1, t1, p1, s1, a1, n1, f1⟩ := channelTagStep_spec cl d r
  rcases h1 : channelTagStep cl d r with ⟨_ | e1, r1⟩
  swap
  · -- the tag block fails
    rw [h1] at t1 s1 f1
    dsimp only at t1 s1 f1
    left
    refine ⟨cs1, e1, p1.trans (List.prefix_append _ _), ?_, ?_, ?_, ?_, f1 rfl⟩ <;>
      simp only [resourceChannelUpdate, h1, t1, s1]
  rw [h1] at t1 s1 a1 n1
  dsimp only at t1 s1 a1 n1
  have hcs1 := n1 rfl
  subst hcs1
  have t2 := call_trace cl (.DescribeChannel d.name) r1
  have s2 := (call_state_of_not_stateCall cl (.DescribeChannel d.name) r1 rfl (by simp)).1
  have a2 := call_arn cl (.DescribeChannel d.name) r1
  have f2 := call_fst cl (.DescribeChannel d.name) r1
  rcases h2 : call cl (.DescribeChannel d.name) r1 with ⟨_ | e2, r2⟩
  swap
  · -- the describe before the stop decision fails
    rw [h2] at t2 s2 f2
    dsimp only at t2 s2 f2
    left
    refine ⟨observeCalls d r.arn, e2, List.prefix_rfl, ?_, ?_, ?_, ?_,
      ⟨r1.trace, .DescribeChannel d.name, Or.inl rfl, by rw [← f2]; rfl⟩⟩ <;>
      simp only [resourceChannelUpdate, h1, h2, t2, t1, s2, s1, observeCalls, List.append_assoc]
  rw [h2] at t2 s2 a2
  dsimp only at t2 s2 a2
  rw [t1] at t2
  rw [s1] at s2
  rw [a1] at a2
  right
  -- the stop decision
  have key : ∃ r3 res3, (if r2.channelState = "RUNNING" then stopChannel cl d.name r2
        else (none, r2)) = (res3, r3) ∧
      r3.trace = r.trace ++ (observeCalls d r.arn ++ stopPart r.channelState d.name) ∧
      r3.arn = r.arn ∧
      (res3 = none → r3.channelState = stateAfterStop r.channelState) ∧
      (∀ e, res3 = some e → r.channelState = "RUNNING" ∧ r3.channelState = r.channelState ∧
        cl (r.trace ++ observeCalls d r.arn) (.StopChannel d.name) = some e) := by
    by_cases hrun : r.channelState = "RUNNING"
    · have t3 := call_trace cl (.StopChannel d.name) r2
      have s3 := call_stop_state cl d.name r2
      have f3 := call_fst cl (.StopChannel d.name) r2
      refine ⟨(call cl (.StopChannel d.name) r2).2, (call cl (.StopChannel d.name) r2).1,
        by simp [s2, hrun, stopChannel], ?_, ?_, ?_, ?_⟩
      · rw [t3, t2]; simp [observeCalls, stopPart, hrun]
      · rw [call_arn, a2]
      · intro hn
        rw [s3, ← f3, hn]; simp [stateAfterStop, hrun]
      · intro e he
        rw [f3] at he
        refine ⟨hrun, ?_, ?_⟩
        · rw [s3, he, s2]; rfl
        · rw [t2] at he; simpa [observeCalls] using he
    · refine ⟨r2, none, by simp [s2, hrun], ?_, a2, ?_, by simp⟩
      · rw [t2]; simp [observeCalls, stopPart, hrun]
      · intro _; rw [s2]; simp [stateAfterStop, hrun]
  obtain ⟨r3, res3, h3, t3, a3, s3ok, s3err⟩ := key
  cases res3 with
  | some e3 =>
    obtain ⟨hrun, s3, f3⟩ := s3err e3 rfl
    left
    refine ⟨hrun, e3, ?_, ?_, ?_, ?_, f3⟩ <;>
      simp only [resourceChannelUpdate, h1, h2, h3, t3, s3, stopPart, hrun, if_true]
  | none =>
    right
    have s3 := s3ok rfl
    obtain ⟨t4, s4, a4, f4, n4⟩ := updatePolicy_spec cl d d.name r3
    rcases h4 : updatePolicy cl d d.name r3 with ⟨_ | e4, r4⟩
    swap
    · -- the policy step fails
      rw [h4] at t4 s4 f4
      dsimp only at t4 s4 f4
      left
      refine ⟨e4, ?_, ?_, ?_, ?_, f4 rfl⟩ <;>
        simp only [resourceChannelUpdate, h1, h2, h3, h4, t4, t3, s4, s3, List.append_assoc]
    rw [h4] at t4 s4 a4 n4
    dsimp only at t4 s4 a4 n4
    have p4 := n4 rfl
    rw [t3] at p4
    rw [t3] at t4
    rw [s3] at s4
    rw [a3] at a4
    right
    have t5 := call_trace cl (.UpdateChannel d.name) r4
    have s5 := call_update_state cl d.name r4
    have a5 := call_arn cl (.UpdateChannel d.name) r4
    have f5 := call_fst cl (.UpdateChannel d.name) r4
    rcases h5 : call cl (.UpdateChannel d.name) r4 with ⟨_ | e5, r5⟩
    swap
    · -- `UpdateChannel` fails
      rw [h5] at t5 s5 f5
      dsimp only at t5 s5 f5
      left
      refine ⟨e5, ?_, ?_, ?_, ?_, ?_⟩
      · simp only [resourceChannelUpdate, h1, h2, h3, h4, h5]
      · simp only [resourceChannelUpdate, h1, h2, h3, h4, h5]
      · simp only [resourceChannelUpdate, h1, h2, h3, h4, h5, t5, t4, List.append_assoc]
      · simp only [resourceChannelUpdate, h1, h2, h3, h4, h5, s5, s4]
      · simpa [t4, List.append_assoc] using f5.symm
    have h3' := h3
    rw [s2] at h3'
    rw [h5] at t5 s5 a5 f5
    dsimp only at t5 s5 a5 f5
    have u5 : cl (r.trace ++ (observeCalls d r.arn ++ stopPart r.channelState d.name ++
        policyCalls d d.name)) (.UpdateChannel d.name) = none := by
      simpa [t4, List.append_assoc] using f5.symm
    rw [t4] at t5
    rw [s4] at s5
    rw [a4] at a5
    right
    by_cases hre : restartCondition r.channelState (newStatusFromSchema d) = true
    · have t6 := call_trace cl (.StartChannel d.name) r5
      have s6 := call_start_state cl d.name r5
      have a6 := call_arn cl (.StartChannel d.name) r5
      have f6 := call_fst cl (.StartChannel d.name) r5
      rcases h6 : call cl (.StartChannel d.name) r5 with ⟨_ | e6, r6⟩
      · rw [h6] at t6 s6 a6 f6
        dsimp only at t6 s6 a6 f6
        right
        refine ⟨r6, ?_, ?_, ?_, ?_, u5, p4⟩
        · simp only [resourceChannelUpdate, h1, h2, s2, h3', h4, h5, hre, if_true, startChannel,
            h6, a5]
        · rw [t6, t5]; simp [startPart, hre]
        · rw [s6, ← f6]; simp [finalState, hre]
        · rw [a6, a5]
      · rw [h6] at t6 s6 f6
        dsimp only at t6 s6 f6
        left
        refine ⟨hre, e6, ?_, ?_, ?_, ?_, ?_, u5⟩
        · simp only [resourceChannelUpdate, h1, h2, s2, h3', h4, h5, hre, if_true, startChannel,
            h6]
        · simp only [resourceChannelUpdate, h1, h2, s2, h3', h4, h5, hre, if_true, startChannel,
            h6]
        · simp only [resourceChannelUpdate, h1, h2, s2, h3', h4, h5, hre, if_true, startChannel,
            h6, t6, t5]
          simp
        · simp only [resourceChannelUpdate, h1, h2, s2, h3', h4, h5, hre, if_true, startChannel,
            h6, s6, ← f6]
          simp [s5]
        · simpa [t5, List.append_assoc] using f6.symm
    · right
      refine ⟨r5, ?_, ?_, ?_, a5, u5, p4⟩
      · simp only [resourceChannelUpdate, h1, h2, s2, h3', h4, h5, hre, Bool.false_eq_true,
          if_false, a5]
      · rw [t5]; simp [startPart, hre]
      · rw [s5]; simp [finalState, hre]

/-! ## Channel update: the state calls -/

theorem restartCondition_iff (p n : String) :
    restartCondition p n = true ↔ (p = "RUNNING" ∨ n = "RUNNING") ∧ n ≠ "STOPPED" := by
  simp [restartCondition]

theorem newStatusFromSchema_eq (d : ResourceData) : newStatusFromSchema d = d.channelState := by
  unfold newStatusFromSchema
  by_cases hd : d.channelState = "" <;> simp [hd]

theorem tagCalls_mem {arn : String} {old new : Tags} {c : Call}
    (hc : c ∈ tagCalls arn old new) : c.isTagCall = true := by
  unfold tagCalls at hc
  simp only [List.mem_append] at hc
  rcases hc with hc | hc <;> split at hc <;> simp_all [Call.isTagCall]

theorem observeCalls_mem {d : ResourceData} {arn : String} {c : Call}
    (hc : c ∈ observeCalls d arn) : c.isReadCall = true ∨ c.isTagCall = true := by
  unfold observeCalls tagStepCalls at hc
  simp only [List.mem_append, List.mem_singleton] at hc
  rcases hc with hc | hc
  · split at hc
    · simp only [List.mem_cons] at hc
      rcases hc with hc | hc
      · subst hc; exact Or.inl rfl
      · exact Or.inr (tagCalls_mem hc)
    · simp at hc
  · subst hc; exact Or.inl rfl

theorem policyCalls_mem {d : ResourceData} {n : String} {c : Call}
    (hc : c ∈ policyCalls d n) : c.isPolicyCall = true := by
  unfold policyCalls at hc
  split at hc
  · simp at hc
  · split at hc <;> simp_all [Call.isPolicyCall]

theorem filter_stateCall_eq_nil {l : List Call}
    (hl : ∀ c ∈ l, c.isReadCall = true ∨ c.isTagCall = true ∨ c.isPolicyCall = true) :
    l.filter Call.isStateCall = [] := by
  rw [List.filter_eq_nil_iff]
  intro c hc
  have := hl c hc
  cases c <;> simp_all [Call.isStateCall, Call.isReadCall, Call.isTagCall, Call.isPolicyCall]

theorem filter_observeCalls (d : ResourceData) (arn : String) :
    (observeCalls d arn).filter Call.isStateCall = [] :=
  filter_stateCall_eq_nil fun _ hc => (observeCalls_mem hc).imp_right Or.inl

theorem filter_policyCalls (d : ResourceData) (n : String) :
    (policyCalls d n).filter Call.isStateCall = [] :=
  filter_stateCall_eq_nil fun _ hc => Or.inr (Or.inr (policyCalls_mem hc))

theorem filter_readCalls {l : List Call} (hl : ∀ c ∈ l, c.isReadCall = true) :
    l.filter Call.isStateCall = [] :=
  filter_stateCall_eq_nil fun c hc => Or.inl (hl c hc)

theorem filter_stopPart (p n : String) :
    (stopPart p n).filter Call.isStateCall = stopPart p n := by
  unfold stopPart; split <;> simp [Call.isStateCall]

theorem filter_startPart (p q n : String) :
    (startPart p q n).filter Call.isStateCall = startPart p q n := by
  unfold startPart; split <;> simp [Call.isStateCall]

/-- Whatever the client does, the state calls `resourceChannelUpdate` issues are
a front part of: the stop (when the channel is observed RUNNING), the update,
the start (under `restartCondition`). -/
theorem resourceChannelUpdate_stateCalls (h : Helpers) (cl : Client) (d : ResourceData)
    (r : Remote) :
    (issued r (resourceChannelUpdate h cl d r).remote).filter Call.isStateCall <+:
      stopPart r.channelState d.name ++
        .UpdateChannel d.name :: startPart r.channelState (newStatusFromSchema d) d.name := by
  rcases resourceChannelUpdate_cases h cl d r with ⟨pre, e, hp, -, -, ht, -, -⟩ |
    ⟨hrun, e, -, -, ht, -, -⟩ | ⟨e, -, -, ht, -, -⟩ | ⟨e, -, -, ht, -, -⟩ |
    ⟨hre, e, -, -, ht, -, -, -⟩ | ⟨r6, ho, ht, -, -, -, -⟩
  · rw [issued_of_trace ht]
    have hf := hp.filter Call.isStateCall
    rw [filter_observeCalls, List.prefix_nil] at hf
    rw [hf]
    exact List.nil_prefix
  · rw [issued_of_trace ht]
    simp only [List.filter_append, filter_observeCalls, stopPart, hrun, if_true, List.nil_append]
    exact ⟨_, rfl⟩
  · rw [issued_of_trace ht]
    simp only [List.filter_append, filter_observeCalls, filter_policyCalls, filter_stopPart,
      List.nil_append, List.append_nil]
    exact List.prefix_append _ _
  · rw [issued_of_trace ht]
    simp only [List.filter_append, filter_observeCalls, filter_policyCalls, filter_stopPart,
      List.nil_append, List.append_nil]
    exact (List.prefix_append_right_inj _).2 ⟨_, rfl⟩
  · rw [issued_of_trace ht]
    simp only [List.filter_append, filter_observeCalls, filter_policyCalls, filter_stopPart,
      List.nil_append, List.append_nil, startPart, hre, if_true]
    exact (List.prefix_append_right_inj _).2 List.prefix_rfl
  · obtain ⟨cs, ht', hcs, -⟩ := resourceChannelRead_issued h cl { d with id := r.arn } r6
    have ht2 : (resourceChannelUpdate h cl d r).remote.trace = r.trace ++
        (observeCalls d r.arn ++ stopPart r.channelState d.name ++ policyCalls d d.name ++
          [.UpdateChannel d.name] ++ startPart r.channelState (newStatusFromSchema d) d.name ++
          cs) := by
      rw [ho, ht', ht]; simp
    rw [issued_of_trace ht2]
    simp only [List.filter_append, filter_observeCalls, filter_policyCalls, filter_stopPart,
      filter_startPart, filter_readCalls hcs, List.nil_append, List.append_nil]
    have hu : List.filter Call.isStateCall [Call.UpdateChannel d.name] =
        [Call.UpdateChannel d.name] := rfl
    rw [hu, List.append_assoc]
    exact (List.prefix_append_right_inj _).2 List.prefix_rfl

/-- When no remote call fails, `resourceChannelUpdate` reaches the read-back:
the calls issued are the tag block, the describe, the stop, the policy call,
the update, the start and the read-back calls, and the channel is left in
`finalState`. -/
theorem resourceChannelUpdate_ok (h : Helpers) (cl : Client) (d : ResourceData) (r : Remote)
    (hok : ∀ t c, cl t c = none) :
    ∃ rd, (∀ c ∈ rd, c.isReadCall = true) ∧
      issued r (resourceChannelUpdate h cl d r).remote =
        observeCalls d r.arn ++ stopPart r.channelState d.name ++ policyCalls d d.name ++
          [.UpdateChannel d.name] ++ startPart r.channelState (newStatusFromSchema d) d.name ++
          rd ∧
      (resourceChannelUpdate h cl d r).remote.channelState =
        finalState r.channelState (newStatusFromSchema d) := by
  rcases resourceChannelUpdate_cases h cl d r with ⟨_, _, -, -, -, -, -, t, c, -, hf⟩ |
    ⟨-, _, -, -, -, -, hf⟩ | ⟨_, -, -, -, -, t, c, -, hf⟩ | ⟨_, -, -, -, -, hf⟩ |
    ⟨-, _, -, -, -, -, hf, -⟩ | ⟨r6, ho, ht, hs, -, -, -⟩
  · rw [hok] at hf; simp at hf
  · rw [hok] at hf; simp at hf
  · rw [hok] at hf; simp at hf
  · rw [hok] at hf; simp at hf
  · rw [hok] at hf; simp at hf
  · obtain ⟨cs, ht', hcs, hs'⟩ := resourceChannelRead_issued h cl { d with id := r.arn } r6
    refine ⟨cs, hcs, ?_, ?_⟩
    · apply issued_of_trace
      rw [ho, ht', ht]; simp
    · rw [ho, hs', hs]

/-- When `resourceChannelUpdate` returns no diagnostics it went through the
start decision, and the channel is left in `finalState`. -/
theorem resourceChannelUpdate_state_of_no_diags (h : Helpers) (cl : Client) (d : ResourceData)
    (r : Remote) (hd : (resourceChannelUpdate h cl d r).diags = []) :
    (resourceChannelUpdate h cl d r).remote.channelState =
      finalState r.channelState (newStatusFromSchema d) := by
  rcases resourceChannelUpdate_cases h cl d r with ⟨_, _, -, he, -⟩ |
    ⟨-, _, he, -⟩ | ⟨_, he, -⟩ | ⟨_, he, -⟩ | ⟨-, _, he, -⟩ | ⟨r6, ho, -, hs, -, -, -⟩
  · rw [hd] at he; simp at he
  · rw [hd] at he; simp at he
  · rw [hd] at he; simp at he
  · rw [hd] at he; simp at he
  · rw [hd] at he; simp at he
  · obtain ⟨cs, -, -, hs'⟩ := resourceChannelRead_issued h cl { d with id := r.arn } r6
    rw [ho, hs', hs]

/-! ## Channel update: the claims -/

theorem finalState_eq (p n : String) (hp : p = "RUNNING" ∨ p = "STOPPED") :
    finalState p n =
      if (p = "RUNNING" ∨ n = "RUNNING") ∧ n ≠ "STOPPED" then "RUNNING" else "STOPPED" := by
  unfold finalState stateAfterStop
  by_cases hc : restartCondition p n = true
  · rw [if_pos hc, if_pos ((restartCondition_iff p n).1 hc)]
  · rw [if_neg hc, if_neg (fun hx => hc ((restartCondition_iff p n).2 hx))]
    rcases hp with hp | hp <;> simp [hp]

theorem startChannel_mem_startPart (p q n : String) :
    Call.StartChannel n ∈ startPart p q n ↔ restartCondition p q = true := by
  unfold startPart; split <;> simp_all

/-- Claim C1, as the code has it: when every remote call succeeds, with
`r.channelState` the state the describe before the stop decision returns and
`d.channelState` the `channel_state` the update reads from the record (the
declared value or, when none is declared, the one kept from the prior state; ""
when there is neither), `resourceChannelUpdate` issues `StartChannel`, and
issues it after `UpdateChannel`, exactly when the channel was RUNNING or that
value is RUNNING, and that value is not STOPPED; the channel ends RUNNING in
that case and STOPPED otherwise. -/
theorem resourceChannelUpdate_restart_iff (h : Helpers) (cl : Client) (d : ResourceData)
    (r : Remote) (hok : ∀ t c, cl t c = none)
    (hprev : r.channelState = "RUNNING" ∨ r.channelState = "STOPPED") :
    (Call.StartChannel d.name ∈ issued r (resourceChannelUpdate h cl d r).remote ↔
      (r.channelState = "RUNNING" ∨ d.channelState = "RUNNING") ∧
        d.channelState ≠ "STOPPED") ∧
    ((∃ pre post, issued r (resourceChannelUpdate h cl d r).remote =
          pre ++ .UpdateChannel d.name :: post ∧ Call.StartChannel d.name ∈ post) ↔
      (r.channelState = "RUNNING" ∨ d.channelState = "RUNNING") ∧
        d.channelState ≠ "STOPPED") ∧
    (∀ pre post, issued r (resourceChannelUpdate h cl d r).remote =
        pre ++ .UpdateChannel d.name :: post → Call.StartChannel d.name ∉ pre) ∧
    (resourceChannelUpdate h cl d r).remote.channelState =
      (if (r.channelState = "RUNNING" ∨ d.channelState = "RUNNING") ∧
          d.channelState ≠ "STOPPED" then "RUNNING" else "STOPPED") ∧
    d.channelState =
      (if d.configChannelState = "" then d.priorChannelState else d.configChannelState) := by
  obtain ⟨rd, hrd, hi, hs⟩ := resourceChannelUpdate_ok h cl d r hok
  rw [newStatusFromSchema_eq] at hi hs
  have m1 : Call.StartChannel d.name ∉ observeCalls d r.arn := fun hm => by
    have := observeCalls_mem hm
    simp [Call.isReadCall, Call.isTagCall] at this
  have m2 : Call.StartChannel d.name ∉ stopPart r.channelState d.name := by
    unfold stopPart; split <;> simp
  have m3 : Call.StartChannel d.name ∉ policyCalls d d.name := fun hm => by
    have := policyCalls_mem hm
    simp [Call.isPolicyCall] at this
  have m4 : Call.StartChannel d.name ∉ rd := fun hm => by
    have := hrd _ hm
    simp [Call.isReadCall] at this
  have hmem : Call.StartChannel d.name ∈ issued r (resourceChannelUpdate h cl d r).remote ↔
      (r.channelState = "RUNNING" ∨ d.channelState = "RUNNING") ∧
        d.channelState ≠ "STOPPED" := by
    rw [hi, ← restartCondition_iff]
    simp [m1, m2, m3, m4, startChannel_mem_startPart]
  have hsub := resourceChannelUpdate_stateCalls h cl d r
  refine ⟨hmem, ⟨?_, ?_⟩, ?_, ?_, channelState_eq d⟩
  · rintro ⟨pre, post, hdec, hp⟩
    exact hmem.1 (by rw [hdec]; simp [hp])
  · intro hc
    refine ⟨observeCalls d r.arn ++ stopPart r.channelState d.name ++ policyCalls d d.name,
      startPart r.channelState d.channelState d.name ++ rd, by rw [hi]; simp, ?_⟩
    simp [startChannel_mem_startPart, (restartCondition_iff _ _).2 hc]
  · intro pre post hdec hp
    have hsl : List.Sublist [Call.StartChannel d.name, Call.UpdateChannel d.name]
        (issued r (resourceChannelUpdate h cl d r).remote) := by
      rw [hdec]
      exact List.Sublist.append (List.singleton_sublist.2 hp)
        (List.Sublist.cons₂ _ (List.nil_sublist _))
    have hsl2 := (hsl.filter Call.isStateCall).trans hsub.sublist
    have hpw : (stopPart r.channelState d.name ++ .UpdateChannel d.name ::
        startPart r.channelState (newStatusFromSchema d) d.name).Pairwise
        (fun a b => ¬ (a = Call.StartChannel d.name ∧ b = Call.UpdateChannel d.name)) := by
      unfold stopPart startPart
      split <;> split <;> simp
    have := hpw.sublist hsl2
    simp [Call.isStateCall] at this
  · rw [hs]
    exact finalState_eq _ _ hprev

/-- Witness for C1: the four cases of the table with nothing in the prior state,
and a RUNNING channel with nothing declared and STOPPED kept from the prior
state, every call succeeding. -/
theorem resourceChannelUpdate_restart_iff_witness :
    (resourceChannelUpdate plainHelpers okClient (channelData "")
        (remoteIn "RUNNING")).remote.channelState = "RUNNING" ∧
    (resourceChannelUpdate plainHelpers okClient (channelData "STOPPED")
        (remoteIn "RUNNING")).remote.channelState = "STOPPED" ∧
    (resourceChannelUpdate plainHelpers okClient (channelData "RUNNING")
        (remoteIn "STOPPED")).remote.channelState = "RUNNING" ∧
    (resourceChannelUpdate plainHelpers okClient (channelData "")
        (remoteIn "STOPPED")).remote.channelState = "STOPPED" ∧
    (resourceChannelUpdate plainHelpers okClient undeclaredAfterStopped
        (remoteIn "RUNNING")).remote.channelState = "STOPPED" :=
  ⟨(resourceChannelUpdate_restart_iff plainHelpers okClient (channelData "")
      (remoteIn "RUNNING") (fun _ _ => rfl) (by decide)).2.2.2.1.trans (by decide),
   (resourceChannelUpdate_restart_iff plainHelpers okClient (channelData "STOPPED")
      (remoteIn "RUNNING") (fun _ _ => rfl) (by decide)).2.2.2.1.trans (by decide),
   (resourceChannelUpdate_restart_iff plainHelpers okClient (channelData "RUNNING")
      (remoteIn "STOPPED") (fun _ _ => rfl) (by decide)).2.2.2.1.trans (by decide),
   (resourceChannelUpdate_restart_iff plainHelpers okClient (channelData "")
      (remoteIn "STOPPED") (fun _ _ => rfl) (by decide)).2.2.2.1.trans (by decide),
   (resourceChannelUpdate_restart_iff plainHelpers okClient undeclaredAfterStopped
      (remoteIn "RUNNING") (fun _ _ => rfl) (by decide)).2.2.2.1.trans (by decide)⟩

/-- Counterexample to C1 as stated: the channel is observed RUNNING, no
`channel_state` is declared and the prior state keeps STOPPED; every call
succeeds, no `StartChannel` is issued and the channel ends STOPPED, where the
declared value alone gives a restart. -/
theorem resourceChannelUpdate_prior_stopped_not_restarted :
    ¬ ∀ (h : Helpers) (cl : Client) (d : ResourceData) (r : Remote),
      (∀ t c, cl t c = none) →
      (r.channelState = "RUNNING" ∨ r.channelState = "STOPPED") →
      (Call.StartChannel d.name ∈ issued r (resourceChannelUpdate h cl d r).remote ↔
        (r.channelState = "RUNNING" ∨ d.configChannelState = "RUNNING") ∧
          d.configChannelState ≠ "STOPPED") ∧
      (resourceChannelUpdate h cl d r).remote.channelState =
        (if (r.channelState = "RUNNING" ∨ d.configChannelState = "RUNNING") ∧
            d.configChannelState ≠ "STOPPED" then "RUNNING" else "STOPPED") := by
  intro hall
  have := (hall plainHelpers okClient undeclaredAfterStopped (remoteIn "RUNNING")
    (fun _ _ => rfl) (Or.inl rfl)).2
  revert this
  decide

/-- Claim C2, as the code has it: on a channel observed RUNNING with no
`channel_state` declared, no STOPPED kept from the prior state and every call
succeeding, the state calls of `resourceChannelUpdate` are one `StopChannel`,
one `UpdateChannel`, one `StartChannel`, in this order; with STOPPED kept from
the prior state they are `StopChannel` and `UpdateChannel` only. For every
client: `StopChannel` is issued only when the channel is RUNNING, it is issued
when the channel is RUNNING and the describe and tag calls before the stop
decision succeed, and it never comes after `UpdateChannel`, which it precedes
whenever the channel is RUNNING. -/
theorem resourceChannelUpdate_stop_update_start (h : Helpers) (cl : Client) (d : ResourceData)
    (r : Remote) :
    ((∀ t c, cl t c = none) → r.channelState = "RUNNING" → d.configChannelState = "" →
      d.priorChannelState ≠ "STOPPED" →
      (issued r (resourceChannelUpdate h cl d r).remote).filter Call.isStateCall =
        [.StopChannel d.name, .UpdateChannel d.name, .StartChannel d.name]) ∧
    ((∀ t c, cl t c = none) → r.channelState = "RUNNING" → d.configChannelState = "" →
      d.priorChannelState = "STOPPED" →
      (issued r (resourceChannelUpdate h cl d r).remote).filter Call.isStateCall =
        [.StopChannel d.name, .UpdateChannel d.name]) ∧
    (Call.StopChannel d.name ∈ issued r (resourceChannelUpdate h cl d r).remote →
      r.channelState = "RUNNING") ∧
    ((∀ t c, c.isReadCall = true ∨ c.isTagCall = true → cl t c = none) →
      r.channelState = "RUNNING" →
      Call.StopChannel d.name ∈ issued r (resourceChannelUpdate h cl d r).remote) ∧
    (∀ pre post, issued r (resourceChannelUpdate h cl d r).remote =
        pre ++ .UpdateChannel d.name :: post →
      Call.StopChannel d.name ∉ post ∧
      (r.channelState = "RUNNING" → Call.StopChannel d.name ∈ pre)) := by
  have hsub := resourceChannelUpdate_stateCalls h cl d r
  have hstop : Call.StopChannel d.name ∈ issued r (resourceChannelUpdate h cl d r).remote →
      r.channelState = "RUNNING" := by
    intro hm
    have hm2 : Call.StopChannel d.name ∈
        (issued r (resourceChannelUpdate h cl d r).remote).filter Call.isStateCall :=
      List.mem_filter.2 ⟨hm, rfl⟩
    have hm3 := hsub.subset hm2
    by_contra hrun
    have hn : Call.StopChannel d.name ∉
        startPart r.channelState (newStatusFromSchema d) d.name := by
      unfold startPart; split <;> simp
    simp [stopPart, hrun, hn] at hm3
  have hfilter : (∀ t c, cl t c = none) → r.channelState = "RUNNING" →
      d.configChannelState = "" →
      (issued r (resourceChannelUpdate h cl d r).remote).filter Call.isStateCall =
        .StopChannel d.name :: .UpdateChannel d.name ::
          (if d.priorChannelState = "STOPPED" then [] else [.StartChannel d.name]) := by
    intro hok hrun hdes
    obtain ⟨rd, hrd, hi, -⟩ := resourceChannelUpdate_ok h cl d r hok
    have hcs : d.channelState = d.priorChannelState := by
      rw [channelState_eq, if_pos hdes]
    rw [hi, newStatusFromSchema_eq, hcs, hrun]
    simp only [List.filter_append, filter_observeCalls, filter_policyCalls, filter_stopPart,
      filter_startPart, filter_readCalls hrd, List.nil_append, List.append_nil]
    have hu : List.filter Call.isStateCall [Call.UpdateChannel d.name] =
        [Call.UpdateChannel d.name] := rfl
    rw [hu]
    by_cases hp : d.priorChannelState = "STOPPED" <;>
      simp [stopPart, startPart, restartCondition, hp]
  refine ⟨?_, ?_, hstop, ?_, ?_⟩
  · intro hok hrun hdes hp
    rw [hfilter hok hrun hdes, if_neg hp]
  · intro hok hrun hdes hp
    rw [hfilter hok hrun hdes, if_pos hp]
  · intro hpre hrun
    rcases resourceChannelUpdate_cases h cl d r with ⟨_, _, -, -, -, -, -, t, c, hc, hf⟩ |
      ⟨-, e, -, -, ht, -, -⟩ | ⟨e, -, -, ht, -, -⟩ | ⟨e, -, -, ht, -, -⟩ |
      ⟨-, e, -, -, ht, -, -, -⟩ | ⟨r6, ho, ht, -, -, -, -⟩
    · rw [hpre t c hc] at hf; simp at hf
    · rw [issued_of_trace ht]; simp
    · rw [issued_of_trace ht]; simp [stopPart, hrun]
    · rw [issued_of_trace ht]; simp [stopPart, hrun]
    · rw [issued_of_trace ht]; simp [stopPart, hrun]
    · obtain ⟨cs, ht', -, -⟩ := resourceChannelRead_issued h cl { d with id := r.arn } r6
      have ht2 : (resourceChannelUpdate h cl d r).remote.trace = r.trace ++
          (observeCalls d r.arn ++ stopPart r.channelState d.name ++ policyCalls d d.name ++
            [.UpdateChannel d.name] ++
            startPart r.channelState (newStatusFromSchema d) d.name ++ cs) := by
        rw [ho, ht', ht]; simp
      rw [issued_of_trace ht2]; simp [stopPart, hrun]
  · intro pre post hdec
    have hpost : Call.StopChannel d.name ∉ post := by
      intro hp
      have hsl : List.Sublist [Call.UpdateChannel d.name, Call.StopChannel d.name]
          (issued r (resourceChannelUpdate h cl d r).remote) := by
        rw [hdec]
        exact (List.Sublist.cons₂ _ (List.singleton_sublist.2 hp)).trans
          (List.sublist_append_right _ _)
      have hsl2 := (hsl.filter Call.isStateCall).trans hsub.sublist
      have hpw : (stopPart r.channelState d.name ++ .UpdateChannel d.name ::
          startPart r.channelState (newStatusFromSchema d) d.name).Pairwise
          (fun a b => ¬ (a = Call.UpdateChannel d.name ∧ b = Call.StopChannel d.name)) := by
        unfold stopPart startPart
        split <;> split <;> simp
      have := hpw.sublist hsl2
      simp [Call.isStateCall] at this
    refine ⟨hpost, ?_⟩
    intro hrun
    have hu : Call.UpdateChannel d.name ∈
        (issued r (resourceChannelUpdate h cl d r).remote).filter Call.isStateCall :=
      List.mem_filter.2 ⟨by rw [hdec]; simp, rfl⟩
    have hs : Call.StopChannel d.name ∈
        (issued r (resourceChannelUpdate h cl d r).remote).filter Call.isStateCall := by
      obtain ⟨t, ht⟩ := hsub
      revert hu ht
      cases (issued r (resourceChannelUpdate h cl d r).remote).filter Call.isStateCall with
      | nil => intro hu; simp at hu
      | cons x xs =>
        intro _ ht
        simp only [stopPart, hrun, if_true, List.cons_append, List.nil_append,
          List.cons.injEq] at ht
        rw [ht.1]; simp
    have hs2 := (List.mem_filter.1 hs).1
    rw [hdec] at hs2
    simp only [List.mem_append, List.mem_cons] at hs2
    rcases hs2 with hs2 | hs2 | hs2
    · exact hs2
    · simp at hs2
    · exact absurd hs2 hpost

/-- Witness for C2: a RUNNING channel, nothing declared, nothing in the prior
state, every call succeeding. -/
theorem resourceChannelUpdate_stop_update_start_witness :
    (issued (remoteIn "RUNNING") (resourceChannelUpdate plainHelpers okClient (channelData "")
        (remoteIn "RUNNING")).remote).filter Call.isStateCall =
      [.StopChannel "c1", .UpdateChannel "c1", .StartChannel "c1"] :=
  (resourceChannelUpdate_stop_update_start plainHelpers okClient (channelData "")
    (remoteIn "RUNNING")).1 (fun _ _ => rfl) rfl rfl (by decide)

/-- Counterexample to C2 as stated: the channel is observed RUNNING, no
`channel_state` is declared and the prior state keeps STOPPED; every call
succeeds and the state calls are not stop, update, start. -/
theorem resourceChannelUpdate_prior_stopped_no_start :
    ¬ ∀ (h : Helpers) (cl : Client) (d : ResourceData) (r : Remote),
      (∀ t c, cl t c = none) → r.channelState = "RUNNING" → d.configChannelState = "" →
      (issued r (resourceChannelUpdate h cl d r).remote).filter Call.isStateCall =
        [.StopChannel d.name, .UpdateChannel d.name, .StartChannel d.name] := by
  intro hall
  have := hall plainHelpers okClient undeclaredAfterStopped (remoteIn "RUNNING")
    (fun _ _ => rfl) rfl rfl
  revert this
  decide

theorem policyDiffSuppress_refl (a : String) : policyDiffSuppress a a = true := by
  simp [policyDiffSuppress]

/-- Claim C3, as the code has it: on a tags-only update of a channel observed
RUNNING, with every call succeeding, `resourceChannelUpdate` issues the describe
and the tag calls and then, as in any update, the describe, `StopChannel`,
`UpdateChannel`, `StartChannel` unless the `channel_state` the record gives is
STOPPED (declared, or kept from the prior state when none is declared), and the
read-back. -/
theorem resourceChannelUpdate_tags_only (h : Helpers) (cl : Client) (d : ResourceData)
    (r : Remote) (hok : ∀ t c, cl t c = none) (htags : d.hasChangeTags = true)
    (hpol : d.oldPolicy = d.policy) (hrun : r.channelState = "RUNNING") :
    (∃ rd, (∀ c ∈ rd, c.isReadCall = true) ∧
      issued r (resourceChannelUpdate h cl d r).remote =
        .DescribeChannel d.name :: tagCalls r.arn d.oldTags d.tags ++
          [.DescribeChannel d.name, .StopChannel d.name, .UpdateChannel d.name] ++
          (if d.channelState = "STOPPED" then [] else [.StartChannel d.name]) ++ rd) ∧
    (∀ c ∈ tagCalls r.arn d.oldTags d.tags, c.isTagCall = true) ∧
    (issued r (resourceChannelUpdate h cl d r).remote).filter Call.isStateCall =
      .StopChannel d.name :: .UpdateChannel d.name ::
        (if d.channelState = "STOPPED" then [] else [.StartChannel d.name]) ∧
    d.channelState =
      (if d.configChannelState = "" then d.priorChannelState else d.configChannelState) := by
  obtain ⟨rd, hrd, hi, -⟩ := resourceChannelUpdate_ok h cl d r hok
  have hsp : startPart "RUNNING" d.channelState d.name =
      (if d.channelState = "STOPPED" then [] else [.StartChannel d.name]) := by
    unfold startPart restartCondition
    by_cases hc : d.channelState = "STOPPED" <;> simp [hc]
  have hpc : policyCalls d d.name = [] := by
    unfold policyCalls
    rw [hpol, policyDiffSuppress_refl]; rfl
  rw [newStatusFromSchema_eq, hrun, hsp, hpc] at hi
  refine ⟨⟨rd, hrd, ?_⟩, fun c hc => tagCalls_mem hc, ?_, channelState_eq d⟩
  · rw [hi]
    simp [observeCalls, tagStepCalls, htags, stopPart]
  · have hf := filter_observeCalls d r.arn
    rw [hi]
    simp only [List.filter_append, hf, filter_readCalls hrd, List.nil_append, List.append_nil,
      List.filter_nil]
    by_cases hc : d.channelState = "STOPPED" <;> simp [hc, stopPart, Call.isStateCall]

/-- Witness for C3: one tag added on a RUNNING channel, every call succeeding;
with nothing declared and nothing in the prior state the channel is restarted,
with STOPPED kept from the prior state it is not. -/
theorem resourceChannelUpdate_tags_only_witness :
    (issued (remoteIn "RUNNING") (resourceChannelUpdate plainHelpers okClient tagsOnlyData
        (remoteIn "RUNNING")).remote).filter Call.isStateCall =
      [.StopChannel "c1", .UpdateChannel "c1", .StartChannel "c1"] ∧
    (issued (remoteIn "RUNNING") (resourceChannelUpdate plainHelpers okClient
        tagsOnlyAfterStopped (remoteIn "RUNNING")).remote).filter Call.isStateCall =
      [.StopChannel "c1", .UpdateChannel "c1"] :=
  ⟨(resourceChannelUpdate_tags_only plainHelpers okClient tagsOnlyData (remoteIn "RUNNING")
      (fun _ _ => rfl) (by decide) rfl rfl).2.2.1,
   (resourceChannelUpdate_tags_only plainHelpers okClient tagsOnlyAfterStopped
      (remoteIn "RUNNING") (fun _ _ => rfl) (by decide) rfl rfl).2.2.1⟩

/-- Counterexample to C3 as stated: a tags-only update of a RUNNING channel
issues state calls. -/
theorem resourceChannelUpdate_tags_only_not_skipped :
    ¬ ∀ (h : Helpers) (cl : Client) (d : ResourceData) (r : Remote),
      (∀ t c, cl t c = none) → d.hasChangeTags = true → d.oldPolicy = d.policy →
      r.channelState = "RUNNING" →
      ∀ c ∈ issued r (resourceChannelUpdate h cl d r).remote, c.isStateCall = false := by
  intro hall
  have := hall plainHelpers okClient tagsOnlyData (remoteIn "RUNNING") (fun _ _ => rfl)
    (by decide) rfl rfl (.StopChannel "c1") (by decide)
  revert this
  decide

theorem not_policyCall_of_read_or_tag {c : Call}
    (hc : c.isReadCall = true ∨ c.isTagCall = true) : c.isPolicyCall = false := by
  cases c <;> simp_all [Call.isReadCall, Call.isTagCall, Call.isPolicyCall]

/-- Claim C4, as the code has it: when `resourceChannelUpdate` returns no error
the channel is RUNNING if it was observed RUNNING or the `channel_state` the
record gives is RUNNING, and that value is not STOPPED, and is STOPPED
otherwise; the record gives the declared value or, when none is declared, the
one kept from the prior state. A run that aborts after the
stop is not compensated: when the channel was observed RUNNING and
`UpdateChannel`, or the policy call, is the call that fails, the error is
returned and the channel is left STOPPED whatever is declared. -/
theorem resourceChannelUpdate_state_consistency (h : Helpers) (cl : Client) (d : ResourceData)
    (r : Remote) (hprev : r.channelState = "RUNNING" ∨ r.channelState = "STOPPED") :
    ((resourceChannelUpdate h cl d r).diags = [] →
      (resourceChannelUpdate h cl d r).remote.channelState =
        (if (r.channelState = "RUNNING" ∨ d.channelState = "RUNNING") ∧
            d.channelState ≠ "STOPPED" then "RUNNING" else "STOPPED")) ∧
    (∀ e, r.channelState = "RUNNING" →
      (∀ t, cl t (.UpdateChannel d.name) = some e) →
      (∀ t c, c ≠ .UpdateChannel d.name → cl t c = none) →
      (resourceChannelUpdate h cl d r).diags = ["error while updating the channel: " ++ e] ∧
      (resourceChannelUpdate h cl d r).remote.channelState = "STOPPED") ∧
    (∀ e, r.channelState = "RUNNING" → policyCalls d d.name ≠ [] →
      (∀ t c, c.isPolicyCall = true → cl t c = some e) →
      (∀ t c, c.isPolicyCall = false → cl t c = none) →
      (resourceChannelUpdate h cl d r).diags ≠ [] ∧
      (resourceChannelUpdate h cl d r).remote.channelState = "STOPPED") ∧
    d.channelState =
      (if d.configChannelState = "" then d.priorChannelState else d.configChannelState) := by
  refine ⟨?_, ?_, ?_, channelState_eq d⟩
  · intro hd
    rw [resourceChannelUpdate_state_of_no_diags h cl d r hd, newStatusFromSchema_eq]
    exact finalState_eq _ _ hprev
  · intro e hrun hfail hothers
    rcases resourceChannelUpdate_cases h cl d r with ⟨_, _, -, -, -, -, -, t, c, hc, hf⟩ |
      ⟨-, _, -, -, -, -, hf⟩ | ⟨_, -, -, -, -, t, c, hc, hf⟩ | ⟨e', hd, -, -, hs, hf⟩ |
      ⟨-, _, -, -, -, -, -, hu⟩ | ⟨_, -, -, -, -, hu, -⟩
    · rw [hothers t c (by rintro rfl; simp [Call.isReadCall, Call.isTagCall] at hc)] at hf
      simp at hf
    · rw [hothers _ _ (by simp)] at hf; simp at hf
    · rw [hothers t c (by rintro rfl; simp [Call.isPolicyCall] at hc)] at hf
      simp at hf
    · rw [hfail] at hf
      simp only [Option.some.injEq] at hf
      subst hf
      exact ⟨hd, by rw [hs, hrun]; rfl⟩
    · rw [hfail] at hu; simp at hu
    · rw [hfail] at hu; simp at hu
  · intro e hrun hne hfail hothers
    rcases resourceChannelUpdate_cases h cl d r with ⟨_, _, -, -, -, -, -, t, c, hc, hf⟩ |
      ⟨-, _, -, -, -, -, hf⟩ | ⟨e', hd, -, -, hs, -⟩ | ⟨_, -, -, -, -, hf⟩ |
      ⟨-, _, -, -, -, -, hf, -⟩ | ⟨_, -, -, -, -, -, hp⟩
    · rw [hothers t c (not_policyCall_of_read_or_tag hc)] at hf
      simp at hf
    · rw [hothers _ (.StopChannel d.name) rfl] at hf; simp at hf
    · exact ⟨by rw [hd]; simp, by rw [hs, hrun]; rfl⟩
    · rw [hothers _ (.UpdateChannel d.name) rfl] at hf; simp at hf
    · rw [hothers _ (.StartChannel d.name) rfl] at hf; simp at hf
    · obtain ⟨c, hc⟩ := List.exists_mem_of_ne_nil _ hne
      have h1 := hp c hc
      rw [hfail _ _ (policyCalls_mem hc)] at h1
      simp at h1

/-- Witness for C4: on a RUNNING channel with nothing declared `UpdateChannel`
is rejected; the error is returned and the channel is left STOPPED. On an
error-free run with nothing declared and STOPPED kept from the prior state the
RUNNING channel ends STOPPED. -/
theorem resourceChannelUpdate_state_consistency_witness :
    ((resourceChannelUpdate plainHelpers
        (failingClient (fun c => c = .UpdateChannel "c1") "BadRequestException")
        (channelData "") (remoteIn "RUNNING")).diags =
      ["error while updating the channel: " ++ "BadRequestException"] ∧
    (resourceChannelUpdate plainHelpers
        (failingClient (fun c => c = .UpdateChannel "c1") "BadRequestException")
        (channelData "") (remoteIn "RUNNING")).remote.channelState = "STOPPED") ∧
    (resourceChannelUpdate plainHelpers okClient undeclaredAfterStopped
        (remoteIn "RUNNING")).remote.channelState = "STOPPED" :=
  ⟨(resourceChannelUpdate_state_consistency plainHelpers
      (failingClient (fun c => c = .UpdateChannel "c1") "BadRequestException")
      (channelData "") (remoteIn "RUNNING") (Or.inl rfl)).2.1 "BadRequestException" rfl
      (fun _ => rfl) (fun _ c hc => by simpa [failingClient, channelData] using hc),
   ((resourceChannelUpdate_state_consistency plainHelpers okClient undeclaredAfterStopped
      (remoteIn "RUNNING") (Or.inl rfl)).1 (by decide)).trans (by decide)⟩

/-- Counterexample to C4 as stated: a run that aborts at `UpdateChannel` leaves a
channel that was RUNNING, with no STOPPED declared, in state STOPPED. -/
theorem resourceChannelUpdate_abort_leaves_stopped :
    ¬ ∀ (h : Helpers) (cl : Client) (d : ResourceData) (r : Remote),
      (r.channelState = "RUNNING" ∨ r.channelState = "STOPPED") →
      (resourceChannelUpdate h cl d r).remote.channelState =
        (if (r.channelState = "RUNNING" ∨ d.configChannelState = "RUNNING") ∧
            d.configChannelState ≠ "STOPPED" then "RUNNING" else "STOPPED") := by
  intro hall
  have := hall plainHelpers
    (failingClient (fun c => c = .UpdateChannel "c1") "BadRequestException")
    (channelData "") (remoteIn "RUNNING") (Or.inl rfl)
  revert this
  decide

/-! ## The force-new condition on `name` -/

/-- Claim C17: for the channel and for the source location, the condition
registered on "name" with `ForceNewIfChange` is true for every pair of different
old and new names and false when they are equal, and the key is flagged as
requiring a new resource exactly when the names differ. -/
theorem name_change_forces_new (old new : String) :
    (channelNameForceNew old new = true ↔ old ≠ new) ∧
    (sourceLocationNameForceNew old new = true ↔ old ≠ new) ∧
    (forceNewIfChange channelNameForceNew old new = true ↔ old ≠ new) ∧
    (forceNewIfChange sourceLocationNameForceNew old new = true ↔ old ≠ new) ∧
    channelNameForceNew old old = false ∧
    sourceLocationNameForceNew old old = false := by
  simp [channelNameForceNew, sourceLocationNameForceNew, forceNewIfChange]

/-! ## The playback-configuration resource -/

/-- Claim C19: for every client, record and remote, the playback-configuration
Update and Delete return empty diagnostics, leave the record and the remote as
they are and issue no call; no `PutPlaybackConfiguration` and no
`DeletePlaybackConfiguration` reaches the remote. -/
theorem playbackConfiguration_update_delete_noop (cl : Client) (d : PlaybackData)
    (r : Remote) :
    resourcePlaybackConfigurationUpdate cl d r = ⟨[], d, r⟩ ∧
    resourcePlaybackConfigurationDelete cl d r = ⟨[], d, r⟩ ∧
    issued r (resourcePlaybackConfigurationUpdate cl d r).remote = [] ∧
    issued r (resourcePlaybackConfigurationDelete cl d r).remote = [] ∧
    (∀ n, Call.PutPlaybackConfiguration n ∉
      issued r (resourcePlaybackConfigurationUpdate cl d r).remote) ∧
    (∀ n, Call.DeletePlaybackConfiguration n ∉
      issued r (resourcePlaybackConfigurationDelete cl d r).remote) := by
  have hi : issued r r = [] := by simp [issued]
  refine ⟨rfl, rfl, ?_, ?_, ?_, ?_⟩ <;>
    simp [resourcePlaybackConfigurationUpdate, resourcePlaybackConfigurationDelete, hi]

/-- Claim C18 at the failing inputs: a non-nil configuration without a CDN
section, or without a DASH section, makes `flatterResourcePlaybackConfiguration`
panic. It returns the empty map for nil, and the eight keys, each with the field
of the input, when both sections are present. -/
theorem flatterResourcePlaybackConfiguration_nil_section :
    flatterResourcePlaybackConfiguration (some configurationWithoutCdn) = none ∧
    flatterResourcePlaybackConfiguration (some configurationWithoutDash) = none ∧
    flatterResourcePlaybackConfiguration none = some [] ∧
    (∀ ads cdn dash name slate tags profile video,
      flatterResourcePlaybackConfiguration
          (some ⟨ads, some cdn, some dash, name, slate, tags, profile, video⟩) =
        some [("ad_decision_server_url", .ptr ads),
          ("cdn_configuration", .block [("ad_segment_url_prefix", cdn.adSegmentUrlPrefix),
            ("content_segment_url_prefix", cdn.contentSegmentUrlPrefix)]),
          ("dash_configuration", .block [("mpd_location", dash.mpdLocation),
            ("origin_manifest_type", dash.originManifestType)]),
          ("name", .ptr name), ("slate_ad_url", .ptr slate), ("tags", .tagMap tags),
          ("transcode_profile_name", .ptr profile),
          ("video_content_source_url", .ptr video)]) :=
  ⟨rfl, rfl, rfl, fun _ _ _ _ _ _ _ _ => rfl⟩

/-! ## Channel read and update: errors -/

/-- Claim C13 at the failing inputs: with every remote call succeeding,
`setChannel`, or `setChannelPolicy`, returns an error and `resourceChannelRead`
returns empty diagnostics. -/
theorem resourceChannelRead_set_error_dropped :
    (failingSetChannel.setChannel ⟨(remoteIn "RUNNING").arn, "RUNNING"⟩ (channelData "")).2 =
      some "arn: invalid or unknown key" ∧
    (resourceChannelRead failingSetChannel okClient (channelData "")
      (remoteIn "RUNNING")).diags = [] ∧
    (failingSetChannelPolicy.setChannelPolicy none (channelData "")).2 =
      some "policy: invalid or unknown key" ∧
    (resourceChannelRead failingSetChannelPolicy okClient (channelData "")
      (remoteIn "RUNNING")).diags = [] := by
  decide

/-- Claim C12 at the failing inputs: a `DescribeChannel` failure in
`resourceChannelUpdate` is returned as the bare error text, in the tag block and
before the stop decision alike, while `resourceChannelRead` wraps the failure of
the same call. -/
theorem resourceChannelUpdate_describe_error_bare :
    (resourceChannelUpdate plainHelpers
        (failingClient (fun c => c = .DescribeChannel "c1") "AccessDeniedException")
        tagsOnlyData (remoteIn "RUNNING")).diags = ["AccessDeniedException"] ∧
    (resourceChannelUpdate plainHelpers
        (failingClient (fun c => c = .DescribeChannel "c1") "AccessDeniedException")
        (channelData "") (remoteIn "RUNNING")).diags = ["AccessDeniedException"] ∧
    (resourceChannelUpdate plainHelpers
        (fun t c => if c = .DescribeChannel "c1" ∧ t ≠ [] then some "AccessDeniedException"
          else none)
        tagsOnlyData (remoteIn "RUNNING")).diags = ["AccessDeniedException"] ∧
    (resourceChannelRead plainHelpers
        (failingClient (fun c => c = .DescribeChannel "c1") "AccessDeniedException")
        (channelData "") (remoteIn "RUNNING")).diags =
      ["error while retrieving the channel: AccessDeniedException"] := by
  decide

/-! ## Source-location read -/

theorem splitOnChar_ne_nil (sep : Char) (l : List Char) : splitOnChar sep l ≠ [] := by
  induction l with
  | nil => simp [splitOnChar]
  | cons c cs ih =>
    unfold splitOnChar
    split
    · simp
    · split <;> simp

theorem stringsSplitSlash_ne_nil (s : String) : stringsSplitSlash s ≠ [] := by
  unfold stringsSplitSlash
  simpa using splitOnChar_ne_nil '/' s.toList

theorem sourceLocationReadName_of_name (d : ResourceData) (hn : d.name ≠ "") :
    sourceLocationReadName d = some (.ok d.name) := by
  unfold sourceLocationReadName
  rw [if_neg]
  rintro ⟨h, -⟩
  exact hn ((string_length_eq_zero _).1 h)

theorem sourceLocationReadName_of_id (d : ResourceData) (hn : d.name = "") (hi : d.id ≠ "") :
    sourceLocationReadName d =
      match arnParse d.id with
      | .error e => some (.error e)
      | .ok a =>
        match (stringsSplitSlash a.resource).getLast? with
        | none => none
        | some n => some (.ok n) := by
  unfold sourceLocationReadName
  rw [if_pos]
  refine ⟨(string_length_eq_zero _).2 hn, ?_⟩
  have : d.id.length ≠ 0 := fun h => hi ((string_length_eq_zero _).1 h)
  omega

/-- Once the name is settled, `resourceSourceLocationRead` returns and has
issued exactly the describe call for that name. -/
theorem resourceSourceLocationRead_of_name
    (setSL : String → ResourceData → ResourceData × Option String) (cl : Client)
    (d : ResourceData) (r : Remote) (n : String)
    (hn : sourceLocationReadName d = some (.ok n)) :
    ∃ out, resourceSourceLocationRead setSL cl d r = some out ∧
      issued r out.remote = [.DescribeSourceLocation n] := by
  simp only [resourceSourceLocationRead, hn]
  have ht := call_trace cl (.DescribeSourceLocation n) r
  rcases hc : call cl (.DescribeSourceLocation n) r with ⟨_ | e, r1⟩
  · rw [hc] at ht
    dsimp only at ht ⊢
    rcases hs : setSL r1.arn d with ⟨d1, _ | e⟩
    · exact ⟨_, rfl, issued_of_trace ht⟩
    · exact ⟨_, rfl, issued_of_trace ht⟩
  · rw [hc] at ht
    exact ⟨_, rfl, issued_of_trace ht⟩

/-- Claim C11: in `resourceSourceLocationRead`, with an empty name and a
non-empty identifier, the describe call uses the last "/"-separated segment of
the resource part of the identifier parsed as an ARN, and taking that segment
never fails; when the identifier does not parse, the error is returned and no
call is issued; a non-empty name is used as it is, whatever the identifier. -/
theorem resourceSourceLocationRead_name
    (setSL : String → ResourceData → ResourceData × Option String) (cl : Client)
    (d : ResourceData) (r : Remote) :
    (∀ s, ∃ n, (stringsSplitSlash s).getLast? = some n) ∧
    (resourceSourceLocationRead setSL cl d r).isSome = true ∧
    (∀ a, d.name = "" → d.id ≠ "" → arnParse d.id = .ok a →
      ∃ n out, (stringsSplitSlash a.resource).getLast? = some n ∧
        resourceSourceLocationRead setSL cl d r = some out ∧
        issued r out.remote = [.DescribeSourceLocation n]) ∧
    (∀ e, d.name = "" → d.id ≠ "" → arnParse d.id = .error e →
      resourceSourceLocationRead setSL cl d r =
        some ⟨["error parsing the name from resource arn: " ++ e], d, r⟩) ∧
    (d.name ≠ "" → ∀ id, ∃ out,
      resourceSourceLocationRead setSL cl { d with id := id } r = some out ∧
      issued r out.remote = [.DescribeSourceLocation d.name]) := by
  have hlast : ∀ s, ∃ n, (stringsSplitSlash s).getLast? = some n := by
    intro s
    cases h : (stringsSplitSlash s).getLast? with
    | none => exact absurd (List.getLast?_eq_none_iff.1 h) (stringsSplitSlash_ne_nil s)
    | some n => exact ⟨n, rfl⟩
  have hok : ∀ a, d.name = "" → d.id ≠ "" → arnParse d.id = .ok a →
      ∃ n out, (stringsSplitSlash a.resource).getLast? = some n ∧
        resourceSourceLocationRead setSL cl d r = some out ∧
        issued r out.remote = [.DescribeSourceLocation n] := by
    intro a hn hi ha
    obtain ⟨n, hl⟩ := hlast a.resource
    have hname : sourceLocationReadName d = some (.ok n) := by
      rw [sourceLocationReadName_of_id d hn hi, ha]
      simp only [hl]
    obtain ⟨out, ho, ht⟩ := resourceSourceLocationRead_of_name setSL cl d r n hname
    exact ⟨n, out, hl, ho, ht⟩
  have herr : ∀ e, d.name = "" → d.id ≠ "" → arnParse d.id = .error e →
      resourceSourceLocationRead setSL cl d r =
        some ⟨["error parsing the name from resource arn: " ++ e], d, r⟩ := by
    intro e hn hi he
    unfold resourceSourceLocationRead
    rw [sourceLocationReadName_of_id d hn hi, he]
  have hnamed : d.name ≠ "" → ∀ id, ∃ out,
      resourceSourceLocationRead setSL cl { d with id := id } r = some out ∧
      issued r out.remote = [.DescribeSourceLocation d.name] := by
    intro hn id
    exact resourceSourceLocationRead_of_name setSL cl { d with id := id } r d.name
      (sourceLocationReadName_of_name { d with id := id } hn)
  refine ⟨hlast, ?_, hok, herr, hnamed⟩
  by_cases hn : d.name = ""
  · by_cases hi : d.id = ""
    · have hname : sourceLocationReadName d = some (.ok d.name) := by
        unfold sourceLocationReadName
        rw [if_neg]
        rintro ⟨-, h⟩
        rw [hi] at h
        exact absurd h (by decide)
      obtain ⟨out, ho, -⟩ := resourceSourceLocationRead_of_name setSL cl d r d.name hname
      rw [ho]; rfl
    · cases ha : arnParse d.id with
      | error e => rw [herr e hn hi ha]; rfl
      | ok a =>
        obtain ⟨n, out, -, ho, -⟩ := hok a hn hi ha
        rw [ho]; rfl
  · obtain ⟨out, ho, -⟩ := hnamed hn d.id
    have hd : { d with id := d.id } = d := rfl
    rw [hd] at ho
    rw [ho]; rfl

/-- Witness for C11: the record has lost its name; the describe call uses the
last segment of the resource part of its identifier. -/
theorem resourceSourceLocationRead_name_witness :
    ∃ n out,
      (stringsSplitSlash "sourceLocation/c1").getLast? = some n ∧
      resourceSourceLocationRead (fun _ d => (d, none)) okClient namelessSourceLocation
        (remoteWithSources [] []) = some out ∧
      issued (remoteWithSources [] []) out.remote = [.DescribeSourceLocation n] :=
  (resourceSourceLocationRead_name (fun _ d => (d, none)) okClient namelessSourceLocation
    (remoteWithSources [] [])).2.2.1
    ⟨"aws", "mediatailor", "eu-central-1", "1", "sourceLocation/c1"⟩ rfl (by decide) rfl

/-! ## The tag differ -/

theorem lookup_filter_key (p : String → Bool) (l : Tags) (k : String) :
    (l.filter fun kv => p kv.1).lookup k = if p k then l.lookup k else none := by
  induction l with
  | nil => simp
  | cons kv l ih =>
    obtain ⟨k', v⟩ := kv
    by_cases hk : k = k'
    · subst hk
      by_cases hp : p k = true
      · simp [List.filter_cons, hp, List.lookup_cons]
      · simp only [List.filter_cons, hp, Bool.false_eq_true, if_false]
        rw [ih]; simp [hp]
    · have hb : (k == k') = false := by simpa using hk
      by_cases hp : p k' = true
      · simp only [List.filter_cons, hp, if_true, List.lookup_cons, hb]
        exact ih
      · simp only [List.filter_cons, hp, Bool.false_eq_true, if_false, List.lookup_cons, hb]
        exact ih

theorem mem_of_lookup_eq_some {l : Tags} {k v : String} (h : l.lookup k = some v) :
    (k, v) ∈ l := by
  obtain ⟨l1, l2, hl, -⟩ := List.lookup_eq_some_iff.1 h
  rw [hl]; simp

theorem lookup_eq_none_of_not_key {l : Tags} {k : String} (h : ∀ v, (k, v) ∉ l) :
    l.lookup k = none := by
  rw [List.lookup_eq_none_iff]
  intro kv hkv
  obtain ⟨k', v⟩ := kv
  simp only [bne_iff_ne, ne_eq]
  rintro rfl
  exact h v hkv

theorem value_unique_of_nodup {l : Tags} (hl : (l.map Prod.fst).Nodup) {k v v' : String}
    (h1 : (k, v) ∈ l) (h2 : (k, v') ∈ l) : v = v' := by
  induction l with
  | nil => simp at h1
  | cons kv l ih =>
    simp only [List.map_cons, List.nodup_cons, List.mem_map, not_exists, not_and] at hl
    simp only [List.mem_cons] at h1 h2
    rcases h1 with h1 | h1 <;> rcases h2 with h2 | h2
    · rw [← h1] at h2
      exact (Prod.mk.inj h2).2.symm
    · exact absurd (by rw [← h1]) (hl.1 (k, v') h2)
    · exact absurd (by rw [← h2]) (hl.1 (k, v) h1)
    · exact ih hl.2 h1 h2

theorem mem_addedTags {old new : Tags} {k v : String} :
    (k, v) ∈ addedTags old new ↔ (k, v) ∈ new ∧ old.lookup k ≠ some v := by
  simp [addedTags, List.mem_filter]

theorem mem_removedTags {old new : Tags} {k : String} :
    k ∈ removedTags old new ↔ k ∈ old.map Prod.fst ∧ new.lookup k = none := by
  simp only [removedTags, List.mem_map, List.mem_filter, Option.isNone_iff_eq_none]
  constructor
  · rintro ⟨kv, ⟨hm, hn⟩, rfl⟩
    exact ⟨⟨kv, hm, rfl⟩, hn⟩
  · rintro ⟨⟨kv, hm, rfl⟩, hn⟩
    exact ⟨kv, ⟨hm, hn⟩, rfl⟩

theorem lookup_eq_none_iff_not_key {l : Tags} {k : String} :
    l.lookup k = none ↔ k ∉ l.map Prod.fst := by
  rw [List.lookup_eq_none_iff]
  simp only [List.mem_map, not_exists, not_and, bne_iff_ne, ne_eq]
  constructor
  · intro h kv hkv hk
    exact h kv hkv hk.symm
  · intro h kv hkv hk
    exact h kv hkv hk.symm

theorem lookup_ne_none_of_mem {l : Tags} {k v : String} (h : (k, v) ∈ l) :
    l.lookup k ≠ none := by
  rw [Ne, lookup_eq_none_iff_not_key, not_not]
  exact List.mem_map.2 ⟨(k, v), h, rfl⟩

/-- Claim C15: for every old tag map and every new tag map (a map binds a key
once), the diff of `updateTags` has disjoint key sets, and removing the removed
keys from `old` and then setting the added or updated bindings gives a map that
binds every key as `new` does. A binding of `new` is in add/update exactly when
`old` binds the key differently or not at all, a key is in remove exactly when
`old` has it and `new` does not, and a binding present in both is in neither. -/
theorem tagDiff_disjoint_and_applies (old new : Tags) (hnew : (new.map Prod.fst).Nodup) :
    (∀ k, k ∈ removedTags old new → k ∉ (addedTags old new).map Prod.fst) ∧
    (∀ k, (applyTagDiff old (removedTags old new) (addedTags old new)).lookup k =
      new.lookup k) ∧
    (∀ k v, (k, v) ∈ addedTags old new ↔ (k, v) ∈ new ∧ old.lookup k ≠ some v) ∧
    (∀ k, k ∈ removedTags old new ↔ k ∈ old.map Prod.fst ∧ k ∉ new.map Prod.fst) ∧
    (∀ k v, (k, v) ∈ new → old.lookup k = some v →
      k ∉ (addedTags old new).map Prod.fst ∧ k ∉ removedTags old new) := by
  have hadd : ∀ k v v', (k, v) ∈ new → (k, v') ∈ addedTags old new → v' = v :=
    fun k v v' h1 h2 => value_unique_of_nodup hnew (mem_addedTags.1 h2).1 h1
  refine ⟨?_, ?_, fun k v => mem_addedTags, ?_, ?_⟩
  · intro k hr ha
    obtain ⟨kv, hkv, rfl⟩ := List.mem_map.1 ha
    exact lookup_ne_none_of_mem (mem_addedTags.1 hkv).1 (mem_removedTags.1 hr).2
  · intro k
    unfold applyTagDiff
    rw [List.lookup_append, lookup_filter_key (fun k => !(removedTags old new).contains k)]
    cases hn : new.lookup k with
    | none =>
      have h1 : (addedTags old new).lookup k = none :=
        lookup_eq_none_of_not_key fun v hv =>
          lookup_ne_none_of_mem (mem_addedTags.1 hv).1 hn
      rw [h1]
      by_cases hr : k ∈ removedTags old new
      · simp [hr]
      · have h2 : old.lookup k = none := by
          rw [lookup_eq_none_iff_not_key]
          intro hk
          exact hr (mem_removedTags.2 ⟨hk, hn⟩)
        simp [hr, h2]
    | some v =>
      have hm := mem_of_lookup_eq_some hn
      have hr : k ∉ removedTags old new := fun hr => by
        have := (mem_removedTags.1 hr).2
        rw [hn] at this
        exact absurd this (by simp)
      by_cases ho : old.lookup k = some v
      · have h1 : (addedTags old new).lookup k = none :=
          lookup_eq_none_of_not_key fun v' hv' => by
            have hv := hadd k v v' hm hv'
            subst hv
            exact (mem_addedTags.1 hv').2 ho
        rw [h1]
        simp [hr, ho]
      · have hin : (k, v) ∈ addedTags old new := mem_addedTags.2 ⟨hm, ho⟩
        cases h1 : (addedTags old new).lookup k with
        | none => exact absurd h1 (lookup_ne_none_of_mem hin)
        | some v' =>
          have := hadd k v v' hm (mem_of_lookup_eq_some h1)
          subst this
          simp
  · intro k
    rw [mem_removedTags, lookup_eq_none_iff_not_key]
  · intro k v hm ho
    constructor
    · intro ha
      obtain ⟨kv, hkv, hk⟩ := List.mem_map.1 ha
      obtain ⟨k', v'⟩ := kv
      simp only at hk
      subst hk
      have hv := hadd k' v v' hm hkv
      subst hv
      exact (mem_addedTags.1 hkv).2 ho
    · intro hr
      exact lookup_ne_none_of_mem hm (mem_removedTags.1 hr).2

/-- Witness for C15: one tag changed, one kept, one dropped, one new. -/
theorem tagDiff_disjoint_and_applies_witness :
    addedTags sampleOldTags sampleNewTags = [("env", "prod"), ("owner", "ops")] ∧
    removedTags sampleOldTags sampleNewTags = ["tmp"] ∧
    ∀ k, (applyTagDiff sampleOldTags (removedTags sampleOldTags sampleNewTags)
        (addedTags sampleOldTags sampleNewTags)).lookup k = sampleNewTags.lookup k :=
  ⟨by decide, by decide,
    (tagDiff_disjoint_and_applies sampleOldTags sampleNewTags (by decide)).2.1⟩

/-! ## Channel update: what is issued -/

/-- Whatever the client does, every call `resourceChannelUpdate` issues is one
of the calls before the stop decision, the stop, the policy call, the update,
the start, or a call of the read-back. -/
theorem resourceChannelUpdate_issued_mem (h : Helpers) (cl : Client) (d : ResourceData)
    (r : Remote) (c : Call) (hc : c ∈ issued r (resourceChannelUpdate h cl d r).remote) :
    c ∈ observeCalls d r.arn ∨ c ∈ stopPart r.channelState d.name ∨
      c ∈ policyCalls d d.name ∨ c = .UpdateChannel d.name ∨
      c ∈ startPart r.channelState (newStatusFromSchema d) d.name ∨ c.isReadCall = true := by
  rcases resourceChannelUpdate_cases h cl d r with ⟨pre, e, hp, -, -, ht, -, -⟩ |
    ⟨hrun, e, -, -, ht, -, -⟩ | ⟨e, -, -, ht, -, -⟩ | ⟨e, -, -, ht, -, -⟩ |
    ⟨hre, e, -, -, ht, -, -, -⟩ | ⟨r6, ho, ht, -, -, -, -⟩
  · rw [issued_of_trace ht] at hc
    exact Or.inl (hp.subset hc)
  · rw [issued_of_trace ht] at hc
    simp only [List.mem_append, List.mem_singleton] at hc
    rcases hc with hc | hc
    · exact Or.inl hc
    · exact Or.inr (Or.inl (by simp [stopPart, hrun, hc]))
  · rw [issued_of_trace ht] at hc
    simp only [List.mem_append] at hc
    rcases hc with (hc | hc) | hc
    · exact Or.inl hc
    · exact Or.inr (Or.inl hc)
    · exact Or.inr (Or.inr (Or.inl hc))
  · rw [issued_of_trace ht] at hc
    simp only [List.mem_append, List.mem_singleton] at hc
    rcases hc with ((hc | hc) | hc) | hc
    · exact Or.inl hc
    · exact Or.inr (Or.inl hc)
    · exact Or.inr (Or.inr (Or.inl hc))
    · exact Or.inr (Or.inr (Or.inr (Or.inl hc)))
  · rw [issued_of_trace ht] at hc
    simp only [List.mem_append, List.mem_cons, List.mem_singleton, List.not_mem_nil,
      or_false] at hc
    rcases hc with ((hc | hc) | hc) | hc | hc
    · exact Or.inl hc
    · exact Or.inr (Or.inl hc)
    · exact Or.inr (Or.inr (Or.inl hc))
    · exact Or.inr (Or.inr (Or.inr (Or.inl hc)))
    · exact Or.inr (Or.inr (Or.inr (Or.inr (Or.inl (by simp [startPart, hre, hc])))))
  · obtain ⟨cs, ht', hcs, -⟩ := resourceChannelRead_issued h cl { d with id := r.arn } r6
    have ht2 : (resourceChannelUpdate h cl d r).remote.trace = r.trace ++
        (observeCalls d r.arn ++ stopPart r.channelState d.name ++ policyCalls d d.name ++
          [.UpdateChannel d.name] ++ startPart r.channelState (newStatusFromSchema d) d.name ++
          cs) := by
      rw [ho, ht', ht]; simp
    rw [issued_of_trace ht2] at hc
    simp only [List.mem_append, List.mem_singleton] at hc
    rcases hc with ((((hc | hc) | hc) | hc) | hc) | hc
    · exact Or.inl hc
    · exact Or.inr (Or.inl hc)
    · exact Or.inr (Or.inr (Or.inl hc))
    · exact Or.inr (Or.inr (Or.inr (Or.inl hc)))
    · exact Or.inr (Or.inr (Or.inr (Or.inr (Or.inl hc))))
    · exact Or.inr (Or.inr (Or.inr (Or.inr (Or.inr (hcs c hc)))))

/-- A source-location read that returns has issued nothing or one describe
call. -/
theorem resourceSourceLocationRead_issued
    (setSL : String → ResourceData → ResourceData × Option String) (cl : Client)
    (d : ResourceData) (r : Remote) (out : Outcome)
    (ho : resourceSourceLocationRead setSL cl d r = some out) :
    ∃ cs, out.remote.trace = r.trace ++ cs ∧ ∀ c ∈ cs, ∃ n, c = .DescribeSourceLocation n := by
  unfold resourceSourceLocationRead at ho
  rcases hn : sourceLocationReadName d with _ | ⟨e | n⟩
  · rw [hn] at ho; simp at ho
  · rw [hn] at ho
    simp only [Option.some.injEq] at ho
    subst ho
    exact ⟨[], by simp⟩
  · rw [hn] at ho
    dsimp only at ho
    have ht := call_trace cl (.DescribeSourceLocation n) r
    rcases hc : call cl (.DescribeSourceLocation n) r with ⟨_ | e, r1⟩
    · rw [hc] at ho ht
      dsimp only at ho ht
      rcases hs : setSL r1.arn d with ⟨d1, _ | e⟩
      · rw [hs] at ho
        simp only [Option.some.injEq] at ho
        subst ho
        exact ⟨[.DescribeSourceLocation n], ht, by simp⟩
      · rw [hs] at ho
        simp only [Option.some.injEq] at ho
        subst ho
        exact ⟨[.DescribeSourceLocation n], ht, by simp⟩
    · rw [hc] at ho ht
      simp only [Option.some.injEq] at ho
      subst ho
      exact ⟨[.DescribeSourceLocation n], ht, by simp⟩

/-! ## Channel update: tag and policy steps against the stop -/

/-- Claim C14, as the code has it: the tag block comes before the stop, so when
it fails its error is returned with no `StopChannel`, `UpdateChannel` or
`StartChannel` issued. The policy step comes after the stop decision and before
`UpdateChannel`: when the policy call is the call that fails, an error is
returned with no `UpdateChannel` and no `StartChannel` issued, and `StopChannel`
has been issued exactly when the channel was observed RUNNING. -/
theorem resourceChannelUpdate_tag_and_policy_order (h : Helpers) (cl : Client)
    (d : ResourceData) (r : Remote) :
    (∀ e, (channelTagStep cl d r).1 = some e →
      resourceChannelUpdate h cl d r = ⟨[e], d, (channelTagStep cl d r).2⟩ ∧
      ∀ c ∈ issued r (resourceChannelUpdate h cl d r).remote, c.isStateCall = false) ∧
    (∀ e, policyCalls d d.name ≠ [] →
      (∀ t c, c.isPolicyCall = true → cl t c = some e) →
      (∀ t c, c.isPolicyCall = false → cl t c = none) →
      (resourceChannelUpdate h cl d r).diags ≠ [] ∧
      (issued r (resourceChannelUpdate h cl d r).remote).filter Call.isStateCall =
        stopPart r.channelState d.name ∧
      Call.UpdateChannel d.name ∉ issued r (resourceChannelUpdate h cl d r).remote ∧
      Call.StartChannel d.name ∉ issued r (resourceChannelUpdate h cl d r).remote ∧
      (Call.StopChannel d.name ∈ issued r (resourceChannelUpdate h cl d r).remote ↔
        r.channelState = "RUNNING")) := by
  refine ⟨?_, ?_⟩
  · intro e he
    obtain ⟨cs, ht, hp, -, -, -, -⟩ := channelTagStep_spec cl d r
    rcases h1 : channelTagStep cl d r with ⟨_ | e1, r1⟩
    · rw [h1] at he; simp at he
    · rw [h1] at he ht
      simp only [Option.some.injEq] at he
      subst he
      have ho : resourceChannelUpdate h cl d r = ⟨[e1], d, r1⟩ := by
        simp only [resourceChannelUpdate, h1]
      refine ⟨ho, ?_⟩
      rw [ho, issued_of_trace ht]
      intro c hc
      have hm : c ∈ observeCalls d r.arn := by
        unfold observeCalls
        exact List.mem_append_left _ (hp.subset hc)
      have := observeCalls_mem hm
      cases c <;> simp_all [Call.isStateCall, Call.isReadCall, Call.isTagCall]
  · intro e hne hfail hothers
    have key : (resourceChannelUpdate h cl d r).diags ≠ [] ∧
        (issued r (resourceChannelUpdate h cl d r).remote).filter Call.isStateCall =
          stopPart r.channelState d.name := by
      rcases resourceChannelUpdate_cases h cl d r with ⟨_, _, -, -, -, -, -, t, c, hc, hf⟩ |
        ⟨-, _, -, -, -, -, hf⟩ | ⟨e', hd, -, ht, -, -⟩ | ⟨_, -, -, -, -, hf⟩ |
        ⟨-, _, -, -, -, -, hf, -⟩ | ⟨_, -, -, -, -, -, hp⟩
      · rw [hothers t c (not_policyCall_of_read_or_tag hc)] at hf
        simp at hf
      · rw [hothers _ (.StopChannel d.name) rfl] at hf; simp at hf
      · refine ⟨by rw [hd]; simp, ?_⟩
        rw [issued_of_trace ht]
        simp only [List.filter_append, filter_observeCalls, filter_policyCalls,
          filter_stopPart, List.nil_append, List.append_nil]
      · rw [hothers _ (.UpdateChannel d.name) rfl] at hf; simp at hf
      · rw [hothers _ (.StartChannel d.name) rfl] at hf; simp at hf
      · obtain ⟨c, hc⟩ := List.exists_mem_of_ne_nil _ hne
        have h1 := hp c hc
        rw [hfail _ _ (policyCalls_mem hc)] at h1
        simp at h1
    obtain ⟨hd, hf⟩ := key
    have hmem : ∀ c, c.isStateCall = true →
        (c ∈ issued r (resourceChannelUpdate h cl d r).remote ↔
          c ∈ stopPart r.channelState d.name) := by
      intro c hc
      rw [← hf, List.mem_filter]
      simp [hc]
    refine ⟨hd, hf, ?_, ?_, ?_⟩
    · rw [hmem (.UpdateChannel d.name) rfl]
      unfold stopPart; split <;> simp
    · rw [hmem (.StartChannel d.name) rfl]
      unfold stopPart; split <;> simp
    · rw [hmem (.StopChannel d.name) rfl]
      unfold stopPart; split <;> simp_all

/-- Witness for C14: a new policy on a RUNNING channel, the policy call
rejected; the stop has been issued, the update and the start have not. -/
theorem resourceChannelUpdate_tag_and_policy_order_witness :
    (resourceChannelUpdate plainHelpers
        (failingClient Call.isPolicyCall "AccessDeniedException") policyOnlyData
        (remoteIn "RUNNING")).diags ≠ [] ∧
    (issued (remoteIn "RUNNING") (resourceChannelUpdate plainHelpers
        (failingClient Call.isPolicyCall "AccessDeniedException") policyOnlyData
        (remoteIn "RUNNING")).remote).filter Call.isStateCall =
      stopPart "RUNNING" "c1" :=
  ⟨((resourceChannelUpdate_tag_and_policy_order plainHelpers
      (failingClient Call.isPolicyCall "AccessDeniedException") policyOnlyData
      (remoteIn "RUNNING")).2 "AccessDeniedException" (by decide)
      (fun _ c hc => by simp [failingClient, hc])
      (fun _ c hc => by simp [failingClient, hc])).1,
   ((resourceChannelUpdate_tag_and_policy_order plainHelpers
      (failingClient Call.isPolicyCall "AccessDeniedException") policyOnlyData
      (remoteIn "RUNNING")).2 "AccessDeniedException" (by decide)
      (fun _ c hc => by simp [failingClient, hc])
      (fun _ c hc => by simp [failingClient, hc])).2.1⟩

/-- Counterexample to C14 as stated: the policy step fails on a RUNNING channel
and `StopChannel` has been issued when the error is returned. -/
theorem resourceChannelUpdate_policy_after_stop :
    ¬ ∀ (h : Helpers) (cl : Client) (d : ResourceData) (r : Remote) (e : String),
      policyCalls d d.name ≠ [] →
      (∀ t c, c.isPolicyCall = true → cl t c = some e) →
      (∀ t c, c.isPolicyCall = false → cl t c = none) →
      ∀ c ∈ issued r (resourceChannelUpdate h cl d r).remote, c.isStateCall = false := by
  intro hall
  have := hall plainHelpers (failingClient Call.isPolicyCall "AccessDeniedException")
    policyOnlyData (remoteIn "RUNNING") "AccessDeniedException" (by decide)
    (fun _ c hc => by simp [failingClient, hc])
    (fun _ c hc => by simp [failingClient, hc])
    (.StopChannel "c1") (by decide)
  revert this
  decide

/-! ## Updates with unchanged tags -/

theorem sourceLocationReadName_total (d : ResourceData) :
    ∃ x, sourceLocationReadName d = some x := by
  unfold sourceLocationReadName
  split
  · cases arnParse d.id with
    | error e => exact ⟨.error e, rfl⟩
    | ok a =>
      dsimp only
      cases hl : (stringsSplitSlash a.resource).getLast? with
      | none => exact absurd (List.getLast?_eq_none_iff.1 hl) (stringsSplitSlash_ne_nil _)
      | some n => exact ⟨.ok n, rfl⟩
  · exact ⟨.ok d.name, rfl⟩

theorem resourceSourceLocationRead_total
    (setSL : String → ResourceData → ResourceData × Option String) (cl : Client)
    (d : ResourceData) (r : Remote) :
    ∃ out, resourceSourceLocationRead setSL cl d r = some out := by
  obtain ⟨x, hx⟩ := sourceLocationReadName_total d
  cases x with
  | error e =>
    exact ⟨⟨["error parsing the name from resource arn: " ++ e], d, r⟩,
      by simp only [resourceSourceLocationRead, hx]⟩
  | ok n =>
    obtain ⟨out, ho, -⟩ := resourceSourceLocationRead_of_name setSL cl d r n hx
    exact ⟨out, ho⟩

theorem hasChangeTags_of_tagsEqual {d : ResourceData}
    (heq : tagsEqual d.oldTags d.tags = true) : d.hasChangeTags = false := by
  simp [ResourceData.hasChangeTags, heq]

/-- Claim C16: when the old and the new tag map are equal, the tag block of the
channel update and of the source-location update does nothing: no describe for
the ARN and no tag call. The channel update issues no tag call whatever the
client does and, when every call succeeds, starts with the describe of the stop
decision and goes on with the stop, policy, update, start and read-back calls;
the source-location update starts with `UpdateSourceLocation`, followed by the
describe of the read-back only. -/
theorem update_with_equal_tags (h : Helpers)
    (setSL : String → ResourceData → ResourceData × Option String) (cl : Client)
    (d : ResourceData) (r : Remote) (heq : tagsEqual d.oldTags d.tags = true) :
    channelTagStep cl d r = (none, r) ∧
    (∀ c ∈ issued r (resourceChannelUpdate h cl d r).remote, c.isTagCall = false) ∧
    ((∀ t c, cl t c = none) → ∃ rd, (∀ c ∈ rd, c.isReadCall = true) ∧
      issued r (resourceChannelUpdate h cl d r).remote =
        .DescribeChannel d.name :: (stopPart r.channelState d.name ++ policyCalls d d.name ++
          [.UpdateChannel d.name] ++ startPart r.channelState (newStatusFromSchema d) d.name ++
          rd)) ∧
    sourceLocationTagStep cl d r = (none, r) ∧
    (∃ out rest, resourceSourceLocationUpdate setSL cl d r = some out ∧
      issued r out.remote = .UpdateSourceLocation d.name :: rest ∧
      ∀ c ∈ rest, ∃ n, c = .DescribeSourceLocation n) := by
  have hc := hasChangeTags_of_tagsEqual heq
  have hobs : observeCalls d r.arn = [.DescribeChannel d.name] := by
    simp [observeCalls, tagStepCalls, hc]
  have hstep : sourceLocationTagStep cl d r = (none, r) := by
    simp [sourceLocationTagStep, hc]
  refine ⟨by simp [channelTagStep, hc], ?_, ?_, hstep, ?_⟩
  · intro c hm
    have := resourceChannelUpdate_issued_mem h cl d r c hm
    rw [hobs] at this
    rcases this with hx | hx | hx | hx | hx | hx
    · simp only [List.mem_singleton] at hx
      subst hx; rfl
    · unfold stopPart at hx
      split at hx <;> simp_all [Call.isTagCall]
    · have := policyCalls_mem hx
      cases c <;> simp_all [Call.isTagCall, Call.isPolicyCall]
    · subst hx; rfl
    · unfold startPart at hx
      split at hx <;> simp_all [Call.isTagCall]
    · cases c <;> simp_all [Call.isTagCall, Call.isReadCall]
  · intro hok
    obtain ⟨rd, hrd, hi, -⟩ := resourceChannelUpdate_ok h cl d r hok
    refine ⟨rd, hrd, ?_⟩
    rw [hi, hobs]
    simp
  · have ht := call_trace cl (.UpdateSourceLocation d.name) r
    rcases hu : call cl (.UpdateSourceLocation d.name) r with ⟨_ | e, r2⟩
    · rw [hu] at ht
      dsimp only at ht
      obtain ⟨out, ho⟩ := resourceSourceLocationRead_total setSL cl { d with id := r2.arn } r2
      obtain ⟨cs, hcs, hds⟩ := resourceSourceLocationRead_issued setSL cl _ r2 out ho
      refine ⟨out, cs, ?_, ?_, hds⟩
      · simp only [resourceSourceLocationUpdate, hstep, hu, ho]
      · apply issued_of_trace
        rw [hcs, ht]; simp
    · rw [hu] at ht
      dsimp only at ht
      refine ⟨⟨["error while updating the source location: " ++ e], d, r2⟩, [], ?_, ?_, by simp⟩
      · simp only [resourceSourceLocationUpdate, hstep, hu]
      · exact issued_of_trace ht

/-- Witness for C16: the same tag on both sides, every call succeeding, on a
STOPPED channel; no tag call and one describe before the update. -/
theorem update_with_equal_tags_witness :
    channelTagStep okClient sameTagsData (remoteIn "STOPPED") = (none, remoteIn "STOPPED") ∧
    (∀ c ∈ issued (remoteIn "STOPPED") (resourceChannelUpdate plainHelpers okClient
        sameTagsData (remoteIn "STOPPED")).remote, c.isTagCall = false) ∧
    issued (remoteIn "STOPPED") (resourceChannelUpdate plainHelpers okClient sameTagsData
        (remoteIn "STOPPED")).remote =
      [.DescribeChannel "c1", .UpdateChannel "c1", .DescribeChannel "c1",
        .GetChannelPolicy "c1"] :=
  ⟨(update_with_equal_tags plainHelpers (fun _ d => (d, none)) okClient sameTagsData
      (remoteIn "STOPPED") (by decide)).1,
   (update_with_equal_tags plainHelpers (fun _ d => (d, none)) okClient sameTagsData
      (remoteIn "STOPPED") (by decide)).2.1,
   by decide⟩

end Awsmt
